import Mathlib

/-!
Verification development for the `fluid-bg` raster animation engine
(`src/assets/fluid-bg.ts`, with a near-duplicate untyped variant `fluid-bg.js`).

The engine is shallowly embedded: JS numbers are modelled as rationals
(`ℚ`), the host `Math.sin` / `Math.cos` functions are abstract parameters
`sinq cosq : ℚ → ℚ` of the engine definitions (their exact values never
matter for the claims about the engine's bookkeeping), and the drift
formula itself is additionally embedded over `ℝ` with `Real.sin` /
`Real.cos` where the claim is about the trigonometric formula.
JS `NaN` is modelled by `Option ℚ` (`none` = NaN) in the unit resolver,
where NaN behaviour is claim-relevant.
-/

namespace FluidBg

/-- `clamp` from fluid-bg.ts: `Math.min(b, Math.max(a, v))`. -/
def clampQ (v a b : ℚ) : ℚ := min b (max a v)

/-- `lerp` from fluid-bg.ts: `a + (b - a) * t`. -/
def lerpQ (a b t : ℚ) : ℚ := a + (b - a) * t

/-- Axis-aligned rectangle `{x, y, w, h}` in CSS-pixel units. -/
structure Rect where
  x : ℚ
  y : ℚ
  w : ℚ
  h : ℚ
  deriving DecidableEq, Repr

/-- `inflateRect` from fluid-bg.ts. -/
def inflateRect (r : Rect) (pad : ℚ) : Rect :=
  ⟨r.x - pad, r.y - pad, r.w + pad * 2, r.h + pad * 2⟩

/-- `intersect` from fluid-bg.ts:
`!(a.x+a.w<=b.x || b.x+b.w<=a.x || a.y+a.h<=b.y || b.y+b.h<=a.y)`. -/
def rintersect (a b : Rect) : Bool :=
  !(a.x + a.w ≤ b.x || b.x + b.w ≤ a.x || a.y + a.h ≤ b.y || b.y + b.h ≤ a.y)

/-- `union` from fluid-bg.ts: bounding box of two rectangles. -/
def runion (a b : Rect) : Rect :=
  let x := min a.x b.x
  let y := min a.y b.y
  let r := max (a.x + a.w) (b.x + b.w)
  let btm := max (a.y + a.h) (b.y + b.h)
  ⟨x, y, r - x, btm - y⟩

/-- Rectangle containment: `a` lies inside `b`. -/
def rectSub (a b : Rect) : Prop :=
  b.x ≤ a.x ∧ b.y ≤ a.y ∧ a.x + a.w ≤ b.x + b.w ∧ a.y + a.h ≤ b.y + b.h

instance (a b : Rect) : Decidable (rectSub a b) := by
  unfold rectSub; infer_instance

theorem rectSub_refl (a : Rect) : rectSub a a := by
  refine ⟨le_refl _, le_refl _, le_refl _, le_refl _⟩

theorem rectSub_union_left (a b : Rect) : rectSub a (runion a b) := by
  refine ⟨min_le_left _ _, min_le_left _ _, ?_, ?_⟩ <;>
    · simp only [runion]
      have h1 := le_max_left (a.x + a.w) (b.x + b.w)
      have h2 := le_max_left (a.y + a.h) (b.y + b.h)
      have h3 := min_le_left a.x b.x
      have h4 := min_le_left a.y b.y
      linarith

theorem rectSub_union_right (a b : Rect) : rectSub b (runion a b) := by
  refine ⟨min_le_right _ _, min_le_right _ _, ?_, ?_⟩ <;>
    · simp only [runion]
      have h1 := le_max_right (a.x + a.w) (b.x + b.w)
      have h2 := le_max_right (a.y + a.h) (b.y + b.h)
      have h3 := min_le_right a.x b.x
      have h4 := min_le_right a.y b.y
      linarith

theorem rectSub_trans {a b c : Rect} (hab : rectSub a b) (hbc : rectSub b c) :
    rectSub a c := by
  obtain ⟨h1, h2, h3, h4⟩ := hab
  obtain ⟨g1, g2, g3, g4⟩ := hbc
  exact ⟨le_trans g1 h1, le_trans g2 h2, le_trans h3 g3, le_trans h4 g4⟩

theorem inflateRect_inflateRect (r : Rect) (a b : ℚ) :
    inflateRect (inflateRect r a) b = inflateRect r (a + b) := by
  simp only [inflateRect, Rect.mk.injEq]
  refine ⟨by ring, by ring, by ring, by ring⟩

theorem inflateRect_zero (r : Rect) : inflateRect r 0 = r := by
  simp [inflateRect]

theorem rectSub_inflate_mono {a b : Rect} (c : ℚ) (h : rectSub a b) :
    rectSub (inflateRect a c) (inflateRect b c) := by
  obtain ⟨h1, h2, h3, h4⟩ := h
  refine ⟨?_, ?_, ?_, ?_⟩ <;> simp only [inflateRect] <;> linarith

/-- Extract the first element of the list satisfying `p`, returning it and the
remaining list in order.  This is the effect of the inner `for` loop of
`mergeRects` in fluid-bg.ts: scan from index 0, `splice` out the first hit. -/
def extractFirst (p : Rect → Bool) : List Rect → Option (Rect × List Rect)
  | [] => none
  | r :: rest =>
    if p r then some (r, rest)
    else
      match extractFirst p rest with
      | none => none
      | some (x, rest2) => some (x, r :: rest2)

theorem extractFirst_length {p : Rect → Bool} :
    ∀ {l : List Rect} {x : Rect} {rest : List Rect},
      extractFirst p l = some (x, rest) → rest.length + 1 = l.length := by
  intro l
  induction l with
  | nil => intro x rest h; simp [extractFirst] at h
  | cons r tl ih =>
    intro x rest h
    by_cases hp : p r
    · simp [extractFirst, hp] at h
      obtain ⟨_, h2⟩ := h
      subst h2; simp
    · simp only [extractFirst, hp] at h
      cases he : extractFirst p tl with
      | none => rw [he] at h; simp at h
      | some pr =>
        obtain ⟨x2, rest2⟩ := pr
        rw [he] at h
        simp at h
        obtain ⟨hx, hr⟩ := h
        subst hx; subst hr
        have := ih he
        simp [← this]

theorem extractFirst_mem {p : Rect → Bool} :
    ∀ {l : List Rect} {x : Rect} {rest : List Rect},
      extractFirst p l = some (x, rest) →
      ∀ r ∈ l, r = x ∨ r ∈ rest := by
  intro l
  induction l with
  | nil => intro x rest h; simp [extractFirst] at h
  | cons r tl ih =>
    intro x rest h s hs
    by_cases hp : p r
    · simp [extractFirst, hp] at h
      obtain ⟨h1, h2⟩ := h
      subst h1; subst h2
      rcases List.mem_cons.mp hs with h | h
      · exact Or.inl h
      · exact Or.inr h
    · simp only [extractFirst, hp] at h
      cases he : extractFirst p tl with
      | none => rw [he] at h; simp at h
      | some pr =>
        obtain ⟨x2, rest2⟩ := pr
        rw [he] at h
        simp at h
        obtain ⟨hx, hr⟩ := h
        subst hx; subst hr
        rcases List.mem_cons.mp hs with h | h
        · exact Or.inr (h ▸ List.mem_cons_self _ _)
        · rcases ih he s h with h2 | h2
          · exact Or.inl h2
          · exact Or.inr (List.mem_cons_of_mem _ h2)

/-- The absorb phase of `mergeRects`: keep unioning `cur` with the first
intersecting rectangle of the work list (removing it) until none intersects.
Mirrors the JS inner loop with its `i = -1` restart. -/
def absorb (cur : Rect) (work : List Rect) : Rect × List Rect :=
  match h : extractFirst (fun r => rintersect cur r) work with
  | none => (cur, work)
  | some (r, rest) =>
    have : rest.length < work.length := by
      have := extractFirst_length h
      omega
    absorb (runion cur r) rest
termination_by work.length

theorem absorb_eq_of_none (cur : Rect) (work : List Rect)
    (h : extractFirst (fun r => rintersect cur r) work = none) :
    absorb cur work = (cur, work) := by
  unfold absorb
  split
  · rfl
  · rename_i r rest heq
    rw [h] at heq
    cases heq

theorem absorb_eq_of_some (cur : Rect) (work : List Rect) (r : Rect) (rest : List Rect)
    (h : extractFirst (fun s => rintersect cur s) work = some (r, rest)) :
    absorb cur work = absorb (runion cur r) rest := by
  conv_lhs => unfold absorb
  split
  · rename_i heq
    rw [h] at heq
    cases heq
  · rename_i r2 rest2 heq
    rw [h] at heq
    cases heq
    rfl

theorem absorb_sub_cur (cur : Rect) (work : List Rect) :
    rectSub cur (absorb cur work).1 := by
  induction cur, work using absorb.induct with
  | case1 cur work h =>
    rw [absorb_eq_of_none cur work h]
    exact rectSub_refl cur
  | case2 cur work r rest h _ ih =>
    rw [absorb_eq_of_some cur work r rest h]
    exact rectSub_trans (rectSub_union_left cur r) ih

theorem absorb_cover (cur : Rect) (work : List Rect) :
    ∀ r ∈ work, r ∈ (absorb cur work).2 ∨ rectSub r (absorb cur work).1 := by
  induction cur, work using absorb.induct with
  | case1 cur work h =>
    rw [absorb_eq_of_none cur work h]
    intro r hr; exact Or.inl hr
  | case2 cur work x rest h _ ih =>
    rw [absorb_eq_of_some cur work x rest h]
    intro r hr
    rcases extractFirst_mem h r hr with heq | hmem
    · subst heq
      right
      exact rectSub_trans (rectSub_union_right cur r)
        (absorb_sub_cur (runion cur r) rest)
    · exact ih r hmem

theorem absorb_length (cur : Rect) (work : List Rect) :
    (absorb cur work).2.length ≤ work.length := by
  induction cur, work using absorb.induct with
  | case1 cur work h =>
    rw [absorb_eq_of_none cur work h]
  | case2 cur work x rest h _ ih =>
    rw [absorb_eq_of_some cur work x rest h]
    have := extractFirst_length h
    omega

/-- The outer `while (work.length)` loop of `mergeRects`: pop the last work
rectangle, absorb everything it touches, push the result onto `out`. -/
def mergeLoop (work out : List Rect) : List Rect :=
  match h : work.getLast? with
  | none => out
  | some cur =>
    have hne : work ≠ [] := by
      intro he; rw [he] at h; simp at h
    have : (absorb cur work.dropLast).2.length < work.length := by
      have h1 := absorb_length cur work.dropLast
      have h2 : work.dropLast.length = work.length - 1 := by simp
      have h3 : 0 < work.length := List.length_pos.mpr hne
      omega
    mergeLoop (absorb cur work.dropLast).2 (out ++ [(absorb cur work.dropLast).1])
termination_by work.length

theorem mergeLoop_eq_of_none (work out : List Rect) (h : work.getLast? = none) :
    mergeLoop work out = out := by
  unfold mergeLoop
  split
  · rfl
  · rename_i cur heq
    rw [h] at heq
    cases heq

theorem mergeLoop_eq_of_some (work out : List Rect) (cur : Rect)
    (h : work.getLast? = some cur) :
    mergeLoop work out =
      mergeLoop (absorb cur work.dropLast).2 (out ++ [(absorb cur work.dropLast).1]) := by
  conv_lhs => unfold mergeLoop
  split
  · rename_i heq
    rw [h] at heq
    cases heq
  · rename_i cur2 heq
    rw [h] at heq
    cases heq
    rfl

theorem mergeLoop_out_mono (work out : List Rect) :
    ∀ m ∈ out, m ∈ mergeLoop work out := by
  induction work, out using mergeLoop.induct with
  | case1 work out h =>
    rw [mergeLoop_eq_of_none work out h]
    intro m hm; exact hm
  | case2 work out cur h _ _ ih =>
    rw [mergeLoop_eq_of_some work out cur h]
    intro m hm
    exact ih m (List.mem_append_left _ hm)

theorem mergeLoop_cover (work out : List Rect) :
    ∀ r ∈ work, ∃ m ∈ mergeLoop work out, rectSub r m := by
  induction work, out using mergeLoop.induct with
  | case1 work out h =>
    rw [mergeLoop_eq_of_none work out h]
    intro r hr
    have : work = [] := List.getLast?_eq_none_iff.mp h
    subst this; simp at hr
  | case2 work out cur h hne _ ih =>
    rw [mergeLoop_eq_of_some work out cur h]
    intro r hr
    have hdecomp : work.dropLast ++ [cur] = work := by
      have hc : work.getLast hne = cur := by
        have hg := List.getLast?_eq_getLast work hne
        rw [hg] at h
        exact Option.some.inj h
      rw [← hc]
      exact List.dropLast_append_getLast hne
    have hr2 : r ∈ work.dropLast ∨ r = cur := by
      rw [← hdecomp] at hr
      rcases List.mem_append.mp hr with h1 | h1
      · exact Or.inl h1
      · exact Or.inr (List.mem_singleton.mp h1)
    rcases hr2 with hmem | heq
    · rcases absorb_cover cur work.dropLast r hmem with h1 | h1
      · exact ih r h1
      · refine ⟨(absorb cur work.dropLast).1, ?_, h1⟩
        apply mergeLoop_out_mono
        exact List.mem_append_right _ (List.mem_singleton.mpr rfl)
    · subst heq
      refine ⟨(absorb r work.dropLast).1, ?_, absorb_sub_cur r work.dropLast⟩
      apply mergeLoop_out_mono
      exact List.mem_append_right _ (List.mem_singleton.mpr rfl)

/-- `mergeRects` from fluid-bg.ts: inflate every rectangle by `tolerance`,
greedily union everything that touches, deflate again. -/
def mergeRects (rects : List Rect) (tolerance : ℚ) : List Rect :=
  if rects.length ≤ 1 then rects
  else
    (mergeLoop (rects.map (fun r => inflateRect r tolerance)) []).map
      (fun r => inflateRect r (-tolerance))

/-- Every input rectangle is contained in some merged output rectangle. -/
theorem mergeRects_cover (rects : List Rect) (tolerance : ℚ) :
    ∀ r ∈ rects, ∃ m ∈ mergeRects rects tolerance, rectSub r m := by
  intro r hr
  unfold mergeRects
  by_cases hlen : rects.length ≤ 1
  · simp only [hlen, if_true]
    exact ⟨r, hr, rectSub_refl r⟩
  · simp only [hlen, if_false]
    have hmem : inflateRect r tolerance ∈ rects.map (fun s => inflateRect s tolerance) :=
      List.mem_map_of_mem _ hr
    obtain ⟨m, hm, hsub⟩ :=
      mergeLoop_cover (rects.map (fun s => inflateRect s tolerance)) [] _ hmem
    refine ⟨inflateRect m (-tolerance), List.mem_map_of_mem _ hm, ?_⟩
    have := rectSub_inflate_mono (-tolerance) hsub
    rwa [inflateRect_inflateRect, add_neg_cancel, inflateRect_zero] at this

/-! ## Unit resolver (`unitToPx`), with JS `NaN` modelled as `none` -/

/-- A JS `number | string` value. -/
inductive JsVal where
  | num (q : ℚ)
  | str (s : String)
  deriving DecidableEq, Repr

inductive Axis where
  | x
  | y
  | vmax
  deriving DecidableEq, Repr

/-- The `dims` record `{ w, h, vMax }`. -/
structure Dims where
  w : ℚ
  h : ℚ
  vMax : ℚ
  deriving DecidableEq, Repr

def isWsChar (c : Char) : Bool := c = ' ' || c = '\t' || c = '\n' || c = '\r'

def isDigitChar (c : Char) : Bool := '0' ≤ c && c ≤ '9'

def digitVal (c : Char) : ℕ := c.toNat - '0'.toNat

def natOfDigits (ds : List Char) : ℕ := ds.foldl (fun a c => a * 10 + digitVal c) 0

/-- JS `String.prototype.trim`. -/
def trimChars (s : List Char) : List Char :=
  ((s.dropWhile isWsChar).reverse.dropWhile isWsChar).reverse

/-- JS `String.prototype.endsWith`. -/
def endsWithChars (s suffix : List Char) : Bool := suffix.isSuffixOf s

/-- JS `parseFloat` over exact rationals.  `none` models `NaN` (no number
could be parsed); otherwise the longest valid decimal prefix (optional sign,
digits with optional fraction, optional well-formed exponent) is the value.
Floating-point rounding of the decimal literal is abstracted away. -/
def parseFloatQ (s : List Char) : Option ℚ :=
  let l := s.dropWhile isWsChar
  let sign : ℚ × List Char :=
    match l with
    | '-' :: t => (-1, t)
    | '+' :: t => (1, t)
    | _ => (1, l)
  let l1 := sign.2
  let intDs := l1.takeWhile isDigitChar
  let l2 := l1.dropWhile isDigitChar
  let frac : List Char × List Char :=
    match l2 with
    | '.' :: t => (t.takeWhile isDigitChar, t.dropWhile isDigitChar)
    | _ => ([], l2)
  let fracDs := frac.1
  let l3 := frac.2
  if intDs.isEmpty && fracDs.isEmpty then none
  else
    let mant : ℚ :=
      (natOfDigits intDs : ℚ) + (natOfDigits fracDs : ℚ) / (10 : ℚ) ^ fracDs.length
    let expVal : ℤ :=
      match l3 with
      | e :: t =>
        if e = 'e' || e = 'E' then
          let esign : ℤ × List Char :=
            match t with
            | '-' :: t2 => (-1, t2)
            | '+' :: t2 => (1, t2)
            | _ => (1, t)
          let eDs := esign.2.takeWhile isDigitChar
          if eDs.isEmpty then 0 else esign.1 * (natOfDigits eDs : ℤ)
        else 0
      | [] => 0
    some (sign.1 * mant * (10 : ℚ) ^ expVal)

/-- `unitToPx` from fluid-bg.ts.  `none` models a `NaN` result (JS returns
`parseFloat(s)` or a product with it in the unit-suffix branches, which is
`NaN` when the numeric part does not parse); only the final fallback branch
checks `Number.isNaN` and maps it to `0`. -/
def unitToPx (v : JsVal) (dims : Dims) (axis : Axis) : Option ℚ :=
  match v with
  | .num q => some q
  | .str str =>
    let s := trimChars str.data
    if endsWithChars s "px".data then parseFloatQ s
    else if endsWithChars s "%".data then
      (parseFloatQ s).map (fun n => (if axis = Axis.y then dims.h else dims.w) * (n / 100))
    else if endsWithChars s "vw".data then
      (parseFloatQ s).map (fun n => dims.w * (n / 100))
    else if endsWithChars s "vh".data then
      (parseFloatQ s).map (fun n => dims.h * (n / 100))
    else if endsWithChars s "vmax".data then
      (parseFloatQ s).map (fun n => dims.vMax * (n / 100))
    else
      match parseFloatQ s with
      | none => some 0
      | some n => some n

/-- Total `ℚ`-valued view of `unitToPx` used by the engine embedding: the
engine-level claims are all stated on inputs whose units parse, where this
agrees with `unitToPx`; the JS `NaN` flow (`none`) is collapsed to `0` here. -/
def unitToPxQ (v : JsVal) (dims : Dims) (axis : Axis) : ℚ :=
  (unitToPx v dims axis).getD 0

/-! ## Engine data model -/

/-- A blob `center`: either a unit-typed point or a position callback
(`center(dims) || {x:0,y:0}` guards a falsy callback result). -/
inductive CenterSpec where
  | pt (x y : JsVal)
  | fn (f : Dims → Option (ℚ × ℚ))

/-- `resolveCenter` from fluid-bg.ts. -/
def resolveCenter (c : CenterSpec) (dims : Dims) : ℚ × ℚ :=
  match c with
  | .fn f => (f dims).getD (0, 0)
  | .pt x y => (unitToPxQ x dims Axis.x, unitToPxQ y dims Axis.y)

/-- One gradient color layer (alpha stops defaulted inside `_rebuildSprite`;
they do not influence sprite geometry). -/
structure Layer where
  color : ℚ × ℚ × ℚ
  centerAlpha : Option ℚ
  midAlpha : Option ℚ
  edgeAlpha : Option ℚ
  deriving DecidableEq, Repr

/-- `Required<Drift>`: the fully-defaulted drift record stored on a blob. -/
structure DriftReq where
  ax : ℚ
  ay : ℚ
  sx : ℚ
  sy : ℚ
  speed : ℚ
  deriving DecidableEq, Repr

/-- The `Drift` config interface (all fields optional). -/
structure DriftCfg where
  ax : Option ℚ
  ay : Option ℚ
  sx : Option ℚ
  sy : Option ℚ
  speed : Option ℚ
  deriving DecidableEq, Repr

/-- The `Breath` interface (all fields optional); `addBlob` / `updateBlob`
always store a fully-populated record. -/
structure Breath where
  scale : Option (ℚ × ℚ)
  opacity : Option (ℚ × ℚ)
  speed : Option ℚ
  phase : Option ℚ
  deriving DecidableEq, Repr

/-- The cached sprite canvas; only its pixel dimensions matter for damage
geometry. -/
structure Sprite where
  width : ℚ
  height : ℚ
  deriving DecidableEq, Repr

/-- `easeInOutQuad` from the `Easings` table:
`t < 0.5 ? 2*t*t : 1 - Math.pow(-2*t + 2, 2) / 2`. -/
def easeInOutQuad (t : ℚ) : ℚ :=
  if t < 1/2 then 2 * t * t else 1 - (-2 * t + 2) ^ 2 / 2

/-- `Easings[name]` lookup; the table has exactly one entry. -/
def easingsLookup (name : String) : Option (ℚ → ℚ) :=
  if name = "easeInOutQuad" then some easeInOutQuad else none

/-- An active easing transition (`InternalEase`). -/
structure InternalEase where
  fromP : ℚ × ℚ
  toP : ℚ × ℚ
  t : ℚ
  durMs : ℚ
  easeFn : ℚ → ℚ

/-- `BlobInternal` from fluid-bg.ts (leading underscores dropped). -/
structure BlobInternal where
  id : String
  diameter : JsVal
  center : CenterSpec
  layers : List Layer
  opacity : ℚ
  parallaxScale : ℚ
  drift : DriftReq
  breath : Option Breath
  sprite : Option Sprite
  diamPx : ℚ
  ease : Option InternalEase
  lastRect : Option Rect
  nextRect : Option Rect
  static : Bool

/-- The engine `State` record. -/
structure State where
  w : ℚ
  h : ℚ
  vMax : ℚ
  dpr : ℚ
  alpha : ℚ
  blurPx : ℚ
  composite : String
  parallaxVmax : ℚ
  fpsCap : ℚ
  px : ℚ
  py : ℚ
  tx : ℚ
  ty : ℚ
  running : Bool
  prefersReduce : Bool
  damagePaddingPx : ℚ
  fullRedrawThreshold : ℚ
  maxDirtyRects : ℚ

/-- The per-instance engine fields outside `state`. -/
structure Engine where
  state : State
  blobs : List (String × BlobInternal)
  idSeq : ℕ
  needRebuildStatic : Bool
  lastFrameTs : ℚ

/-- Constructor resolution of `fullRedrawThreshold`:
`clamp(opts.fullRedrawThreshold ?? 0.55, 0.1, 1.0)`. -/
def resolveFullRedrawThreshold (opt : Option ℚ) : ℚ :=
  clampQ (opt.getD (11/20)) (1/10) 1

/-! ### Blob registry (a JS `Map`) as an association list -/

def mapGet (m : List (String × BlobInternal)) (k : String) : Option BlobInternal :=
  match m with
  | [] => none
  | p :: tl => if p.1 = k then some p.2 else mapGet tl k

/-- JS `Map.set`: replace in place when the key exists, append otherwise. -/
def mapSet (m : List (String × BlobInternal)) (k : String) (v : BlobInternal) :
    List (String × BlobInternal) :=
  match m with
  | [] => [(k, v)]
  | p :: tl => if p.1 = k then (k, v) :: tl else p :: mapSet tl k v

/-- JS `Map.delete`. -/
def mapDelete (m : List (String × BlobInternal)) (k : String) :
    List (String × BlobInternal) :=
  m.filter (fun p => !(p.1 == k))

/-! ## Engine operations -/

/-- JS `Math.round` (half-up, also for negatives). -/
def jsRound (q : ℚ) : ℚ := ((⌊q + 1/2⌋ : ℤ) : ℚ)

/-- JS `Math.ceil`. -/
def jsCeil (q : ℚ) : ℚ := ((⌈q⌉ : ℤ) : ℚ)

/-- `_rebuildSprite`: we track the sprite's geometry (its canvas is square of
side `round(diamPx * dpr) + ceil(blurPx * dpr) * 2`); the painted gradient
content does not influence any claim. -/
def rebuildSprite (st : State) (b : BlobInternal) : BlobInternal :=
  let dims : Dims := ⟨st.w, st.h, st.vMax⟩
  let dpx := unitToPxQ b.diameter dims Axis.vmax
  let diamPx := max 32 (jsRound dpx)
  let pad := jsCeil (st.blurPx * st.dpr) * 2
  let size := jsRound (diamPx * st.dpr) + pad
  { b with diamPx := diamPx, sprite := some ⟨size, size⟩ }

/-- `_classifyBlobStatic` (the JS falsiness tests `!x` on numbers read as
`x = 0` in the `ℚ` model). -/
def noParallaxB (b : BlobInternal) : Bool := b.parallaxScale == 0

def noBreathB (b : BlobInternal) : Bool :=
  match b.breath with
  | none => true
  | some br =>
    (match br.scale with
     | none => true
     | some sc => sc.1 == 1 && sc.2 == 1) &&
    (match br.opacity with
     | none => true
     | some op => op.1 == 1 && op.2 == 1)

def noDriftB (b : BlobInternal) : Bool :=
  b.drift.speed == 0 &&
    (b.drift.ax == 0 && b.drift.ay == 0 && b.drift.sx == 0 && b.drift.sy == 0)

def classifyBlobStatic (b : BlobInternal) : Bool :=
  noParallaxB b && noBreathB b && noDriftB b && b.ease.isNone

/-- The `Breath` config as supplied by callers. -/
structure BreathCfg where
  scale : Option (ℚ × ℚ)
  opacity : Option (ℚ × ℚ)
  speed : Option ℚ
  phase : Option ℚ
  deriving DecidableEq, Repr

/-- The `BlobConfig` argument of `addBlob` (optional fields as `Option`). -/
structure BlobConfig where
  id : Option String
  diameter : JsVal
  center : CenterSpec
  layers : Option (List Layer)
  opacity : Option ℚ
  parallaxScale : Option ℚ
  drift : Option DriftCfg
  breath : Option BreathCfg

/-- Defaulting of a caller-supplied breath record, as in `addBlob` /
`updateBlob`: every field is stored populated. -/
def fillBreath (bc : BreathCfg) : Breath :=
  { scale := some (bc.scale.getD (1, 1))
    opacity := some (bc.opacity.getD (1, 1))
    speed := some (bc.speed.getD (1/40))
    phase := some (bc.phase.getD 0) }

/-- `addBlob`: build the blob with its defaults, register it, rebuild its
sprite, classify it, and mark the static layer dirty.  Returns the new engine
and the id: the caller-supplied id when it is a truthy string, otherwise the
generated id "b" followed by the pre-incremented sequence counter (an empty
string id is falsy in JS and also triggers generation). -/
def addBlob (e : Engine) (cfg : BlobConfig) : Engine × String :=
  let gen : String × ℕ :=
    match cfg.id with
    | some s => if s = "" then ("b" ++ toString (e.idSeq + 1), e.idSeq + 1) else (s, e.idSeq)
    | none => ("b" ++ toString (e.idSeq + 1), e.idSeq + 1)
  let id := gen.1
  let blob : BlobInternal :=
    { id := id
      diameter := cfg.diameter
      center := cfg.center
      layers := cfg.layers.getD []
      opacity := cfg.opacity.getD 1
      parallaxScale := cfg.parallaxScale.getD 1
      drift :=
        { ax := (cfg.drift.bind DriftCfg.ax).getD 2
          ay := (cfg.drift.bind DriftCfg.ay).getD 1
          sx := (cfg.drift.bind DriftCfg.sx).getD 1
          sy := (cfg.drift.bind DriftCfg.sy).getD 1
          speed := (cfg.drift.bind DriftCfg.speed).getD (1/40) }
      breath := cfg.breath.map fillBreath
      sprite := none
      diamPx := 0
      ease := none
      lastRect := none
      nextRect := none
      static := false }
  let b1 := rebuildSprite e.state blob
  let b2 := { b1 with static := classifyBlobStatic b1 }
  ({ e with blobs := mapSet e.blobs id b2, idSeq := gen.2, needRebuildStatic := true }, id)

/-- The `Partial<BlobConfig>` patch accepted by `updateBlob`.  `breath` is
doubly optional: absent (`none`), or present and `null` (`some none`), or
present with a value. -/
structure BlobPatch where
  diameter : Option JsVal
  layers : Option (List Layer)
  center : Option CenterSpec
  opacity : Option ℚ
  parallaxScale : Option ℚ
  drift : Option DriftCfg
  breath : Option (Option BreathCfg)

def patchNeedSprite (p : BlobPatch) : Bool := p.diameter.isSome || p.layers.isSome

def patchAffectsStatic (p : BlobPatch) : Bool :=
  p.center.isSome || p.opacity.isSome || p.parallaxScale.isSome ||
    p.drift.isSome || p.breath.isSome

/-- The per-blob effect of `updateBlob`'s field assignments followed by the
conditional sprite rebuild and reclassification. -/
def applyPatch (st : State) (b : BlobInternal) (p : BlobPatch) : BlobInternal :=
  let b := { b with diameter := p.diameter.getD b.diameter }
  let b := { b with layers := p.layers.getD b.layers }
  let b := { b with center := p.center.getD b.center }
  let b := { b with opacity := p.opacity.getD b.opacity }
  let b := { b with parallaxScale := p.parallaxScale.getD b.parallaxScale }
  let b :=
    match p.drift with
    | none => b
    | some d =>
      { b with drift :=
          { ax := d.ax.getD b.drift.ax
            ay := d.ay.getD b.drift.ay
            sx := d.sx.getD b.drift.sx
            sy := d.sy.getD b.drift.sy
            speed := d.speed.getD b.drift.speed } }
  let b :=
    match p.breath with
    | none => b
    | some none => { b with breath := none }
    | some (some bc) => { b with breath := some (fillBreath bc) }
  let b := if patchNeedSprite p then rebuildSprite st b else b
  let b := if patchAffectsStatic p then { b with static := classifyBlobStatic b } else b
  b

/-- `updateBlob`: a no-op on an unknown id. -/
def updateBlob (e : Engine) (id : String) (p : BlobPatch) : Engine :=
  match mapGet e.blobs id with
  | none => e
  | some b =>
    let b2 := applyPatch e.state b p
    { e with blobs := mapSet e.blobs id b2
             needRebuildStatic :=
               e.needRebuildStatic || (patchNeedSprite p || patchAffectsStatic p) }

/-- `removeBlob`: a no-op on an unknown id. -/
def removeBlob (e : Engine) (id : String) : Engine :=
  match mapGet e.blobs id with
  | none => e
  | some _ => { e with blobs := mapDelete e.blobs id, needRebuildStatic := true }

/-- `clearBlobs`. -/
def clearBlobs (e : Engine) : Engine :=
  { e with blobs := [], needRebuildStatic := true }

/-- `easeTo`: a no-op on an unknown id; otherwise records the transition
(resolved from/to points, `t = 0`, duration floored at 1ms, looked-up easing
with `easeInOutQuad` fallback) and forces the blob dynamic. -/
def easeTo (e : Engine) (id : String) (toCenter : JsVal × JsVal)
    (durationMs : ℚ) (easing : String) : Engine :=
  match mapGet e.blobs id with
  | none => e
  | some b =>
    let dims : Dims := ⟨e.state.w, e.state.h, e.state.vMax⟩
    let fromP := resolveCenter b.center dims
    let toP := (unitToPxQ toCenter.1 dims Axis.x, unitToPxQ toCenter.2 dims Axis.y)
    let es : InternalEase :=
      { fromP := fromP, toP := toP, t := 0, durMs := max 1 durationMs
        easeFn := (easingsLookup easing).getD easeInOutQuad }
    let b2 := { b with ease := some es }
    let b3 := if b2.static then { b2 with static := false } else b2
    { e with blobs := mapSet e.blobs id b3
             needRebuildStatic := e.needRebuildStatic || b2.static }

/-! ## Motion model and the per-frame step

The host trigonometry (`Math.sin`, `Math.cos`) enters the engine only through
the abstract parameters `sinq cosq : ℚ → ℚ`; no engine-level claim depends on
their values. -/

/-- The double value of the source's `TAU = Math.PI * 2`; it is only ever fed
to the abstract `sinq` / `cosq`, so its exact value is inert. -/
def tauQ : ℚ := 6283185307179586 / 1000000000000000

/-- The result record of `_blobStateNow`. -/
structure BlobNow where
  cx : ℚ
  cy : ℚ
  scaleMul : ℚ
  alphaMul : ℚ
  deriving DecidableEq, Repr

/-- `_blobStateNow`: easing interpolation (the transition is read, never
advanced, here), parallax offset, two-sinusoid drift per axis, breathing
multipliers.  The JS guards of the form `(d.ax || 0)` are the identity on
`ℚ` and are dropped. -/
def blobStateNow (sinq cosq : ℚ → ℚ) (st : State) (b : BlobInternal)
    (tSec parallaxPx : ℚ) : BlobNow :=
  let base := resolveCenter b.center ⟨st.w, st.h, st.vMax⟩
  let c0 : ℚ × ℚ :=
    match b.ease with
    | none => base
    | some es =>
      let e := es.easeFn es.t
      (lerpQ es.fromP.1 es.toP.1 e, lerpQ es.fromP.2 es.toP.2 e)
  let dx := st.px * parallaxPx * b.parallaxScale
  let dy := st.py * parallaxPx * b.parallaxScale
  let d := b.drift
  let driftX := sinq (tSec * tauQ * d.speed + 13/10) * d.ax
    + sinq (tSec * tauQ * (d.speed * (1/2)) + 7/10) * d.sx
  let driftY := cosq (tSec * tauQ * d.speed + 9/10) * d.ay
    + cosq (tSec * tauQ * (d.speed * (3/5)) + 2/5) * d.sy
  let breathMuls : ℚ × ℚ :=
    match b.breath with
    | none => (1, 1)
    | some br =>
      let speed := br.speed.getD 0
      let phase := br.phase.getD 0
      let p := sinq (tauQ * (speed * tSec + phase))
      ((match br.scale with
        | none => 1
        | some sc => lerpQ sc.1 sc.2 ((p + 1) / 2)),
       (match br.opacity with
        | none => 1
        | some op => lerpQ op.1 op.2 ((p + 1) / 2)))
  { cx := c0.1 + dx + driftX
    cy := c0.2 + dy + driftY
    scaleMul := breathMuls.1
    alphaMul := breathMuls.2 }

/-- `_blobRect`: the rectangle currently occupied by a blob's scaled sprite
(callers guard on the sprite's presence, mirrored by `getD`). -/
def blobRect (sinq cosq : ℚ → ℚ) (st : State) (b : BlobInternal)
    (tSec parallaxPx : ℚ) : Rect :=
  let n := blobStateNow sinq cosq st b tSec parallaxPx
  let spr := b.sprite.getD ⟨0, 0⟩
  let sw := spr.width / st.dpr * n.scaleMul
  let sh := spr.height / st.dpr * n.scaleMul
  ⟨n.cx - sw / 2, n.cy - sh / 2, sw, sh⟩

/-- The easing-advance block at the top of `_step`'s blob loop: advance the
elapsed fraction by real delta-time (both increments clamped to the unit
interval); on completion clear the transition and reclassify.  The returned
flag is the completion-time contribution to `_needRebuildStatic`
(the blob's new static flag). -/
def advanceEase (dtMs : ℚ) (b : BlobInternal) : BlobInternal × Bool :=
  match b.ease with
  | none => (b, false)
  | some es =>
    let inc := clampQ (dtMs / es.durMs) 0 1
    let t2 := clampQ (es.t + inc) 0 1
    if 1 ≤ t2 then
      let b2 : BlobInternal := { b with ease := none }
      let b3 : BlobInternal := { b2 with static := classifyBlobStatic b2 }
      (b3, b3.static)
    else
      ({ b with ease := some { es with t := t2 } }, false)

/-- The damage safety padding of `_step`:
`Math.max(s.damagePaddingPx, s.blurPx * 1.5)`. -/
def stepPad (s : State) : ℚ := max s.damagePaddingPx (s.blurPx * (3/2))

/-- `s.parallaxVmax * (s.vMax / 100)` as computed in `_step` and
`_drawDynamics`. -/
def stepParallaxPx (s : State) : ℚ := s.parallaxVmax * (s.vMax / 100)

/-- The skip guard at the head of every per-blob loop:
`if (b._static || !b._sprite) continue`. -/
def stepSkip (b : BlobInternal) : Bool := b.static || b.sprite.isNone

/-- The pointer smoothing at the top of `_step`:
each axis moves 10% toward the target. -/
def smoothedState (s : State) : State :=
  { s with px := lerpQ s.px s.tx (1/10), py := lerpQ s.py s.ty (1/10) }

/-- The per-blob state effect of `_step`'s first loop: advance easing, record
the current rectangle in `_nextRect`. -/
def stepBlobUpdate (sinq cosq : ℚ → ℚ) (st : State) (dtMs tSec ppx : ℚ)
    (b : BlobInternal) : BlobInternal :=
  if stepSkip b then b
  else
    let b1 := (advanceEase dtMs b).1
    { b1 with nextRect := some (blobRect sinq cosq st b1 tSec ppx) }

/-- The dirty rectangles contributed by one blob in `_step`'s first loop: the
inflated previous rectangle (when present) followed by the inflated current
rectangle. -/
def stepBlobDirty (sinq cosq : ℚ → ℚ) (st : State) (dtMs tSec ppx pad : ℚ)
    (b : BlobInternal) : List Rect :=
  if stepSkip b then []
  else
    let b1 := (advanceEase dtMs b).1
    let nowRect := blobRect sinq cosq st b1 tSec ppx
    (match b.lastRect with
     | some lr => [inflateRect lr pad]
     | none => []) ++ [inflateRect nowRect pad]

/-- One blob's contribution to `_needRebuildStatic` during `_step`'s first
loop (an ease completing into a static classification). -/
def stepBlobRebuildFlag (dtMs : ℚ) (b : BlobInternal) : Bool :=
  if stepSkip b then false else (advanceEase dtMs b).2

/-- What a frame drew. `idle`: nothing (no dynamic blobs, static layer
already valid); `full`: full-frame redraw, with the dynamic blob ids drawn
on top; `patch`: repaired exactly `rects` from the static layer, then drew
the dynamic blob ids whose current rectangle intersects a patched region. -/
inductive RenderAction where
  | idle
  | full (drawn : List String)
  | patch (rects : List Rect) (drawn : List String)
  deriving DecidableEq, Repr

/-- `_drawDynamics`: the ids drawn, in registry order — dynamic blobs with a
sprite, restricted (when `limitRects` is given) to those whose current
rectangle intersects some limit rectangle. -/
def drawnDynamics (sinq cosq : ℚ → ℚ) (st : State)
    (blobs : List (String × BlobInternal)) (tSec ppx : ℚ)
    (limitRects : Option (List Rect)) : List String :=
  (blobs.filter (fun p =>
    !stepSkip p.2 &&
      (match limitRects with
       | none => true
       | some rects => rects.any (fun r => rintersect r (blobRect sinq cosq st p.2 tSec ppx))))).map
    (fun p => p.1)

/-- The dirty list assembled by `_step`'s first loop. -/
def stepDirtyList (sinq cosq : ℚ → ℚ) (e : Engine) (ts dtMs : ℚ) : List Rect :=
  let s1 := smoothedState e.state
  e.blobs.flatMap
    (fun p => stepBlobDirty sinq cosq s1 dtMs (ts / 1000) (stepParallaxPx s1) (stepPad s1) p.2)

/-- The registry after `_step`'s first loop. -/
def stepBlobs1 (sinq cosq : ℚ → ℚ) (e : Engine) (ts dtMs : ℚ) :
    List (String × BlobInternal) :=
  let s1 := smoothedState e.state
  e.blobs.map
    (fun p => (p.1, stepBlobUpdate sinq cosq s1 dtMs (ts / 1000) (stepParallaxPx s1) p.2))

/-- The per-blob effect of `_step`'s trailing loop
(`b._lastRect = b._nextRect || null; b._nextRect = null`, skipping static or
sprite-less blobs). -/
def stepCleanup (b : BlobInternal) : BlobInternal :=
  if stepSkip b then b else { b with lastRect := b.nextRect, nextRect := none }

/-- The merged damage of the frame. -/
def stepMerged (sinq cosq : ℚ → ℚ) (e : Engine) (ts dtMs : ℚ) : List Rect :=
  mergeRects (stepDirtyList sinq cosq e ts dtMs) 2

/-- Covered-area fraction of the merged damage over the surface. -/
def stepCover (sinq cosq : ℚ → ℚ) (e : Engine) (ts dtMs : ℚ) : ℚ :=
  ((stepMerged sinq cosq e ts dtMs).map (fun r => r.w * r.h)).sum /
    ((smoothedState e.state).w * (smoothedState e.state).h)

/-- `_step`.  The static layer's pixel content is not modelled; its dirty
flag is: it is cleared by the unconditional build at the top (and by
`_fullRedraw`), and ease completions during the loop may set it again, in
which case the patch path leaves it set for the next frame. -/
def step (sinq cosq : ℚ → ℚ) (e : Engine) (ts dtMs : ℚ) : Engine × RenderAction :=
  let s1 := smoothedState e.state
  let tSec := ts / 1000
  let ppx := stepParallaxPx s1
  let blobs1 := stepBlobs1 sinq cosq e ts dtMs
  let dirty := stepDirtyList sinq cosq e ts dtMs
  let rebuild1 := e.blobs.any (fun p => stepBlobRebuildFlag dtMs p.2)
  if dirty.isEmpty then
    if rebuild1 then
      ({ e with state := s1, blobs := blobs1, needRebuildStatic := false },
       RenderAction.full (drawnDynamics sinq cosq s1 blobs1 tSec ppx none))
    else
      ({ e with state := s1, blobs := blobs1, needRebuildStatic := false },
       RenderAction.idle)
  else
    let merged := stepMerged sinq cosq e ts dtMs
    let cover := stepCover sinq cosq e ts dtMs
    let takeFull := (merged.length : ℚ) > s1.maxDirtyRects || cover > s1.fullRedrawThreshold
    let blobs2 := blobs1.map (fun p => (p.1, stepCleanup p.2))
    if takeFull then
      ({ e with state := s1, blobs := blobs2, needRebuildStatic := false },
       RenderAction.full (drawnDynamics sinq cosq s1 blobs1 tSec ppx none))
    else
      ({ e with state := s1, blobs := blobs2, needRebuildStatic := rebuild1 },
       RenderAction.patch merged (drawnDynamics sinq cosq s1 blobs1 tSec ppx (some merged)))

/-- The outcome of one scheduled frame callback. -/
inductive LoopResult where
  | stopped (e : Engine)
  | skipped (e : Engine)
  | frame (e : Engine) (act : RenderAction)

/-- `_loop`: bail out when not running; when an FPS cap is set and too little
wall-clock time has elapsed since the last accepted frame, reschedule without
touching any state; otherwise accept the frame, record its timestamp, and
step with the real delta-time. -/
def loop (sinq cosq : ℚ → ℚ) (e : Engine) (ts : ℚ) : LoopResult :=
  if !e.state.running then LoopResult.stopped e
  else if e.state.fpsCap > 0 ∧ ts - e.lastFrameTs < 1000 / e.state.fpsCap then
    LoopResult.skipped e
  else
    let dt := max 0 (ts - e.lastFrameTs)
    let e1 := { e with lastFrameTs := ts }
    let r := step sinq cosq e1 ts dt
    LoopResult.frame r.1 r.2

/-- The center at which a blob is rendered during the frame that produced
engine state `e` (the view `_drawDynamics` takes of `_blobStateNow`). -/
def renderedCenter (sinq cosq : ℚ → ℚ) (e : Engine) (ts : ℚ) (id : String) :
    Option (ℚ × ℚ) :=
  (mapGet e.blobs id).map (fun b =>
    let n := blobStateNow sinq cosq e.state b (ts / 1000) (stepParallaxPx e.state)
    (n.cx, n.cy))

/-! ## Registry lemmas -/

theorem mapGet_mapSet_self (m : List (String × BlobInternal)) (k : String)
    (v : BlobInternal) : mapGet (mapSet m k v) k = some v := by
  induction m with
  | nil => simp [mapSet, mapGet]
  | cons p tl ih =>
    by_cases hp : p.1 = k
    · simp [mapSet, mapGet, hp]
    · simp [mapSet, mapGet, hp, ih]

theorem mapGet_map (m : List (String × BlobInternal)) (k : String)
    (f : BlobInternal → BlobInternal) :
    mapGet (m.map (fun p => (p.1, f p.2))) k = (mapGet m k).map f := by
  induction m with
  | nil => simp [mapGet]
  | cons p tl ih =>
    by_cases hp : p.1 = k
    · simp [mapGet, hp]
    · simp [mapGet, hp, ih]

theorem mapSet_keys_of_mem (m : List (String × BlobInternal)) (k : String)
    (v : BlobInternal) (h : mapGet m k ≠ none) :
    (mapSet m k v).map Prod.fst = m.map Prod.fst := by
  induction m with
  | nil => simp [mapGet] at h
  | cons p tl ih =>
    by_cases hp : p.1 = k
    · simp [mapSet, hp]
    · rw [mapGet, if_neg hp] at h
      simp [mapSet, hp, ih h]

theorem mapSet_keys_of_not_mem (m : List (String × BlobInternal)) (k : String)
    (v : BlobInternal) (h : mapGet m k = none) :
    (mapSet m k v).map Prod.fst = m.map Prod.fst ++ [k] := by
  induction m with
  | nil => simp [mapSet]
  | cons p tl ih =>
    by_cases hp : p.1 = k
    · rw [mapGet, if_pos hp] at h
      cases h
    · rw [mapGet, if_neg hp] at h
      simp [mapSet, hp, ih h]

theorem mapGet_none_not_mem (m : List (String × BlobInternal)) (k : String)
    (h : mapGet m k = none) : k ∉ m.map Prod.fst := by
  induction m with
  | nil => simp
  | cons p tl ih =>
    by_cases hp : p.1 = k
    · rw [mapGet, if_pos hp] at h
      cases h
    · rw [mapGet, if_neg hp] at h
      simp only [List.map_cons, List.mem_cons]
      rintro (hk | hk)
      · exact hp hk.symm
      · exact ih h hk

theorem mapSet_keys_nodup (m : List (String × BlobInternal)) (k : String)
    (v : BlobInternal) (h : (m.map Prod.fst).Nodup) :
    ((mapSet m k v).map Prod.fst).Nodup := by
  by_cases hf : mapGet m k = none
  · rw [mapSet_keys_of_not_mem m k v hf]
    have hknot := mapGet_none_not_mem m k hf
    simp [List.nodup_append, h, hknot]
  · rwa [mapSet_keys_of_mem m k v hf]

/-! ## Motion-view lemmas (the fields `_blobStateNow` reads) -/

/-- The fields of a blob that `_blobStateNow` depends on. -/
structure MotionView where
  center : CenterSpec
  parallaxScale : ℚ
  drift : DriftReq
  breath : Option Breath
  ease : Option InternalEase

def motionOf (b : BlobInternal) : MotionView :=
  ⟨b.center, b.parallaxScale, b.drift, b.breath, b.ease⟩

theorem blobStateNow_congr (sinq cosq : ℚ → ℚ) (st : State) {b1 b2 : BlobInternal}
    (h : motionOf b1 = motionOf b2) (tSec ppx : ℚ) :
    blobStateNow sinq cosq st b1 tSec ppx = blobStateNow sinq cosq st b2 tSec ppx := by
  have hc : b1.center = b2.center := congrArg MotionView.center h
  have hps : b1.parallaxScale = b2.parallaxScale := congrArg MotionView.parallaxScale h
  have hd : b1.drift = b2.drift := congrArg MotionView.drift h
  have hb : b1.breath = b2.breath := congrArg MotionView.breath h
  have he : b1.ease = b2.ease := congrArg MotionView.ease h
  unfold blobStateNow
  rw [hc, hps, hd, hb, he]

/-! ## Step lemmas -/

/-- The motion-relevant per-blob effect of one `_step` (ease advancement for
processed blobs; rectangle bookkeeping stripped). -/
def stepEff (dtMs : ℚ) (b : BlobInternal) : BlobInternal :=
  if stepSkip b then b else (advanceEase dtMs b).1

theorem motionOf_stepCleanup (b : BlobInternal) :
    motionOf (stepCleanup b) = motionOf b := by
  unfold stepCleanup; split <;> rfl

theorem static_stepCleanup (b : BlobInternal) :
    (stepCleanup b).static = b.static := by
  unfold stepCleanup; split <;> rfl

theorem sprite_stepCleanup (b : BlobInternal) :
    (stepCleanup b).sprite = b.sprite := by
  unfold stepCleanup; split <;> rfl

theorem motionOf_stepBlobUpdate (sinq cosq : ℚ → ℚ) (st : State)
    (dtMs tSec ppx : ℚ) (b : BlobInternal) :
    motionOf (stepBlobUpdate sinq cosq st dtMs tSec ppx b) = motionOf (stepEff dtMs b) := by
  unfold stepBlobUpdate stepEff; split <;> rfl

theorem static_stepBlobUpdate (sinq cosq : ℚ → ℚ) (st : State)
    (dtMs tSec ppx : ℚ) (b : BlobInternal) :
    (stepBlobUpdate sinq cosq st dtMs tSec ppx b).static = (stepEff dtMs b).static := by
  unfold stepBlobUpdate stepEff; split <;> rfl

theorem sprite_stepBlobUpdate (sinq cosq : ℚ → ℚ) (st : State)
    (dtMs tSec ppx : ℚ) (b : BlobInternal) :
    (stepBlobUpdate sinq cosq st dtMs tSec ppx b).sprite = (stepEff dtMs b).sprite := by
  unfold stepBlobUpdate stepEff; split <;> rfl

theorem step_state (sinq cosq : ℚ → ℚ) (e : Engine) (ts dtMs : ℚ) :
    (step sinq cosq e ts dtMs).1.state = smoothedState e.state := by
  simp only [step]
  split <;> split <;> rfl

theorem step_lastFrameTs (sinq cosq : ℚ → ℚ) (e : Engine) (ts dtMs : ℚ) :
    (step sinq cosq e ts dtMs).1.lastFrameTs = e.lastFrameTs := by
  simp only [step]
  split <;> split <;> rfl

/-- After a `_step`, a registered blob is still registered; its motion state,
static flag and sprite are those of its ease-advanced version (rectangle
bookkeeping aside). -/
theorem step_blob (sinq cosq : ℚ → ℚ) (e : Engine) (ts dtMs : ℚ) (id : String)
    (b : BlobInternal) (h : mapGet e.blobs id = some b) :
    ∃ b2, mapGet (step sinq cosq e ts dtMs).1.blobs id = some b2 ∧
      motionOf b2 = motionOf (stepEff dtMs b) ∧
      b2.static = (stepEff dtMs b).static ∧
      b2.sprite = (stepEff dtMs b).sprite := by
  have hb1 : mapGet (stepBlobs1 sinq cosq e ts dtMs) id =
      some (stepBlobUpdate sinq cosq (smoothedState e.state) dtMs (ts / 1000)
        (stepParallaxPx (smoothedState e.state)) b) := by
    unfold stepBlobs1
    rw [mapGet_map, h]
    rfl
  have hb2 : mapGet ((stepBlobs1 sinq cosq e ts dtMs).map (fun p => (p.1, stepCleanup p.2))) id =
      some (stepCleanup (stepBlobUpdate sinq cosq (smoothedState e.state) dtMs (ts / 1000)
        (stepParallaxPx (smoothedState e.state)) b)) := by
    rw [mapGet_map, hb1]
    rfl
  simp only [step]
  split
  · split
    all_goals
      refine ⟨_, hb1, ?_, ?_, ?_⟩
      · exact motionOf_stepBlobUpdate ..
      · exact static_stepBlobUpdate ..
      · exact sprite_stepBlobUpdate ..
  · split
    all_goals
      refine ⟨_, hb2, ?_, ?_, ?_⟩
      · rw [motionOf_stepCleanup, motionOf_stepBlobUpdate]
      · rw [static_stepCleanup, static_stepBlobUpdate]
      · rw [sprite_stepCleanup, sprite_stepBlobUpdate]

/-- With a non-empty damage list and the decision predicate satisfied,
`_step` takes the full-redraw path. -/
theorem step_act_full (sinq cosq : ℚ → ℚ) (e : Engine) (ts dtMs : ℚ)
    (hne : stepDirtyList sinq cosq e ts dtMs ≠ [])
    (hdec : ((stepMerged sinq cosq e ts dtMs).length : ℚ) > (smoothedState e.state).maxDirtyRects ∨
      stepCover sinq cosq e ts dtMs > (smoothedState e.state).fullRedrawThreshold) :
    (step sinq cosq e ts dtMs).2 =
      RenderAction.full (drawnDynamics sinq cosq (smoothedState e.state)
        (stepBlobs1 sinq cosq e ts dtMs) (ts / 1000)
        (stepParallaxPx (smoothedState e.state)) none) := by
  have h1 : (stepDirtyList sinq cosq e ts dtMs).isEmpty = false := by
    cases hl : stepDirtyList sinq cosq e ts dtMs with
    | nil => exact absurd hl hne
    | cons a l => rfl
  have h2 : (decide (((stepMerged sinq cosq e ts dtMs).length : ℚ) >
        (smoothedState e.state).maxDirtyRects) ||
      decide (stepCover sinq cosq e ts dtMs > (smoothedState e.state).fullRedrawThreshold)) = true := by
    rcases hdec with h | h <;> simp [h]
  simp only [step, h1, Bool.false_eq_true, if_false, h2, if_true]

/-- With a non-empty damage list and the decision predicate not satisfied,
`_step` patches exactly the merged rectangles and draws exactly the dynamic
blobs whose current rectangle intersects one of them. -/
theorem step_act_patch (sinq cosq : ℚ → ℚ) (e : Engine) (ts dtMs : ℚ)
    (hne : stepDirtyList sinq cosq e ts dtMs ≠ [])
    (hdec : ¬(((stepMerged sinq cosq e ts dtMs).length : ℚ) > (smoothedState e.state).maxDirtyRects ∨
      stepCover sinq cosq e ts dtMs > (smoothedState e.state).fullRedrawThreshold)) :
    (step sinq cosq e ts dtMs).2 =
      RenderAction.patch (stepMerged sinq cosq e ts dtMs)
        (drawnDynamics sinq cosq (smoothedState e.state)
          (stepBlobs1 sinq cosq e ts dtMs) (ts / 1000)
          (stepParallaxPx (smoothedState e.state))
          (some (stepMerged sinq cosq e ts dtMs))) := by
  have h1 : (stepDirtyList sinq cosq e ts dtMs).isEmpty = false := by
    cases hl : stepDirtyList sinq cosq e ts dtMs with
    | nil => exact absurd hl hne
    | cons a l => rfl
  push_neg at hdec
  have h2 : (decide (((stepMerged sinq cosq e ts dtMs).length : ℚ) >
        (smoothedState e.state).maxDirtyRects) ||
      decide (stepCover sinq cosq e ts dtMs > (smoothedState e.state).fullRedrawThreshold)) = false := by
    simp only [Bool.or_eq_false_iff, decide_eq_false_iff_not]
    exact ⟨not_lt.mpr hdec.1, not_lt.mpr hdec.2⟩
  simp only [step, h1, Bool.false_eq_true, if_false, h2, Bool.true_eq_false, if_true]

/-- Whenever `_step` reports a patch, its rectangles are exactly the merged
damage of the frame. -/
theorem step_patch_inv (sinq cosq : ℚ → ℚ) (e : Engine) (ts dtMs : ℚ)
    (rects : List Rect) (ds : List String)
    (h : (step sinq cosq e ts dtMs).2 = RenderAction.patch rects ds) :
    rects = stepMerged sinq cosq e ts dtMs := by
  simp only [step] at h
  split at h
  · split at h <;> simp at h
  · split at h
    · simp at h
    · simp only [] at h
      have := congrArg (fun a =>
        match a with
        | RenderAction.patch r _ => r
        | _ => []) h
      simpa using this.symm

/-! ## Shared test fixtures -/

/-- A 1000×1000 surface, dpr 1, no blur, no parallax, uncapped, pointer at
origin, running; default damage tuning. -/
def stateTest : State :=
  ⟨1000, 1000, 1000, 1, 1/2, 0, "source-over", 0, 0, 0, 0, 0, 0, true, false, 12, 11/20, 16⟩

def engineEmpty : Engine := ⟨stateTest, [], 0, true, 0⟩

/-- A config leaving every optional per-blob parameter unset. -/
def cfgOmitAll : BlobConfig :=
  ⟨none, JsVal.num 100, CenterSpec.pt (JsVal.num 0) (JsVal.num 0), some [], none, none, none, none⟩

/-- An empty update patch. -/
def patchEmpty : BlobPatch := ⟨none, none, none, none, none, none, none⟩

def engineOne : Engine := (addBlob engineEmpty cfgOmitAll).1

/-! ## C7 — unit resolver on unparsable strings -/

/-- C7, counterexample: the claim says every string from which no number can
be parsed — including strings ending in a recognized unit suffix whose
numeric part is unparsable — resolves to `0`.  But a string like "xpx" takes
the `px` suffix branch, which returns `parseFloat("xpx")` = NaN (modelled
`none`), not `0`. -/
theorem c7_counterexample :
    unitToPx (JsVal.str "xpx") ⟨200, 100, 200⟩ Axis.x = none ∧
    unitToPx (JsVal.str "xpx") ⟨200, 100, 200⟩ Axis.x ≠ some 0 := by
  constructor
  · rfl
  · intro h
    rw [show unitToPx (JsVal.str "xpx") ⟨200, 100, 200⟩ Axis.x = none from rfl] at h
    cases h

/-- C7, amended: a string whose trimmed form ends in none of the recognized
unit suffixes and from which no number can be parsed resolves to `0` (and the
resolver is a total function — it never throws); strings that do end in a
recognized suffix propagate NaN instead. -/
theorem c7_amended_unparsable_no_suffix (s : String) (dims : Dims) (axis : Axis)
    (hpx : endsWithChars (trimChars s.data) "px".data = false)
    (hpct : endsWithChars (trimChars s.data) "%".data = false)
    (hvw : endsWithChars (trimChars s.data) "vw".data = false)
    (hvh : endsWithChars (trimChars s.data) "vh".data = false)
    (hvmax : endsWithChars (trimChars s.data) "vmax".data = false)
    (hnan : parseFloatQ (trimChars s.data) = none) :
    unitToPx (JsVal.str s) dims axis = some 0 := by
  unfold unitToPx
  simp only [hpx, hpct, hvw, hvh, hvmax, hnan, Bool.false_eq_true, if_false]

theorem c7_witness :
    (endsWithChars (trimChars "garbage".data) "px".data = false ∧
     endsWithChars (trimChars "garbage".data) "%".data = false ∧
     endsWithChars (trimChars "garbage".data) "vw".data = false ∧
     endsWithChars (trimChars "garbage".data) "vh".data = false ∧
     endsWithChars (trimChars "garbage".data) "vmax".data = false ∧
     parseFloatQ (trimChars "garbage".data) = none) ∧
    unitToPx (JsVal.str "garbage") ⟨200, 100, 200⟩ Axis.x = some 0 :=
  ⟨⟨rfl, rfl, rfl, rfl, rfl, rfl⟩,
    c7_amended_unparsable_no_suffix "garbage" ⟨200, 100, 200⟩ Axis.x rfl rfl rfl rfl rfl rfl⟩

/-! ## C6 — addBlob defaults -/

/-- C6, counterexample: the claim says omitted drift parameters default to
amplitude 0, but `addBlob` defaults them to `ax = 2, ay = 1, sx = 1, sy = 1`
(with speed 1/40): the blob created from a config omitting `drift` has
`drift.ax = 2 ≠ 0`. -/
theorem c6_counterexample :
    (mapGet (addBlob engineEmpty cfgOmitAll).1.blobs "b1").map (fun b => b.drift.ax) =
      some 2 ∧ (2 : ℚ) ≠ 0 := by
  constructor
  · rfl
  · norm_num

/-- C6, amended: a config omitting the optional per-blob parameters yields
opacity 1, parallax scale 1, drift amplitudes ax=2, ay=1, sx=1, sy=1 with
speed 1/40, and breathing disabled. -/
theorem c6_amended_defaults (e : Engine) (cfg : BlobConfig)
    (hop : cfg.opacity = none) (hps : cfg.parallaxScale = none)
    (hdr : cfg.drift = none) (hbr : cfg.breath = none) :
    ∀ b, mapGet (addBlob e cfg).1.blobs (addBlob e cfg).2 = some b →
      b.opacity = 1 ∧ b.parallaxScale = 1 ∧
      b.drift = ⟨2, 1, 1, 1, 1/40⟩ ∧ b.breath = none := by
  intro b hb
  simp only [addBlob] at hb
  rw [mapGet_mapSet_self] at hb
  injection hb with hb
  subst hb
  refine ⟨?_, ?_, ?_, ?_⟩ <;>
    simp [rebuildSprite, hop, hps, hdr, hbr]

theorem c6_witness :
    (cfgOmitAll.opacity = none ∧ cfgOmitAll.parallaxScale = none ∧
     cfgOmitAll.drift = none ∧ cfgOmitAll.breath = none) ∧
    (∃ b, mapGet (addBlob engineEmpty cfgOmitAll).1.blobs (addBlob engineEmpty cfgOmitAll).2 =
        some b ∧
      b.opacity = 1 ∧ b.parallaxScale = 1 ∧ b.drift = ⟨2, 1, 1, 1, 1/40⟩ ∧ b.breath = none) :=
  ⟨⟨rfl, rfl, rfl, rfl⟩,
    ⟨_, rfl, c6_amended_defaults engineEmpty cfgOmitAll rfl rfl rfl rfl _ rfl⟩⟩

/-! ## C8 — unknown-id operations are no-ops -/

/-- C8: `updateBlob`, `removeBlob` and `easeTo` on an identifier absent from
the registry return the engine completely unchanged — registry, surface
state, static-layer-dirty flag and all. -/
theorem c8_unknown_id_noop (e : Engine) (id : String) (p : BlobPatch)
    (tc : JsVal × JsVal) (dur : ℚ) (nm : String)
    (h : mapGet e.blobs id = none) :
    updateBlob e id p = e ∧ removeBlob e id = e ∧ easeTo e id tc dur nm = e := by
  refine ⟨?_, ?_, ?_⟩
  · unfold updateBlob; rw [h]
  · unfold removeBlob; rw [h]
  · unfold easeTo; rw [h]

theorem c8_witness :
    mapGet engineEmpty.blobs "nosuch" = none ∧
    (updateBlob engineEmpty "nosuch" patchEmpty = engineEmpty ∧
     removeBlob engineEmpty "nosuch" = engineEmpty ∧
     easeTo engineEmpty "nosuch" (JsVal.num 1, JsVal.num 2) 500 "easeInOutQuad" = engineEmpty) :=
  ⟨rfl, c8_unknown_id_noop engineEmpty "nosuch" patchEmpty
    (JsVal.num 1, JsVal.num 2) 500 "easeInOutQuad" rfl⟩

/-! ## C9 — frame-rate cap -/

/-- C9: with a positive FPS cap and the engine running, a scheduled callback
is skipped — rescheduling only, every engine field untouched — exactly when
less than 1000/fpsCap milliseconds elapsed since the last accepted frame; a
frame is accepted exactly otherwise. -/
theorem c9_fps_cap (sinq cosq : ℚ → ℚ) (e : Engine) (ts : ℚ)
    (hrun : e.state.running = true) (hcap : e.state.fpsCap > 0) :
    (ts - e.lastFrameTs < 1000 / e.state.fpsCap ↔
      loop sinq cosq e ts = LoopResult.skipped e) := by
  unfold loop
  rw [hrun]
  constructor
  · intro h
    simp [h, hcap]
  · intro h
    by_contra hlt
    simp [hcap, hlt] at h

def engineFps : Engine := { engineEmpty with state := { stateTest with fpsCap := 30 } }

theorem c9_witness :
    (engineFps.state.running = true ∧ engineFps.state.fpsCap > 0 ∧
      (10 : ℚ) - engineFps.lastFrameTs < 1000 / engineFps.state.fpsCap) ∧
    loop (fun _ => 0) (fun _ => 0) engineFps 10 = LoopResult.skipped engineFps :=
  ⟨⟨rfl, by norm_num [engineFps, engineEmpty, stateTest], by norm_num [engineFps, engineEmpty, stateTest]⟩,
    (c9_fps_cap (fun _ => 0) (fun _ => 0) engineFps 10 rfl
      (by norm_num [engineFps, engineEmpty, stateTest])).mp (by norm_num [engineFps, engineEmpty, stateTest])⟩

/-! ## C10 — addBlob id handling -/

/-- C10: re-adding with an existing caller-supplied id replaces in place (the
key list, hence the registry size, is unchanged); `addBlob` always preserves
key uniqueness; a config with no id gets the generated id "b" followed by the
strictly-increased sequence counter. -/
theorem c10_addBlob_registry :
    (∀ e cfg id0, cfg.id = some id0 → id0 ≠ "" → mapGet e.blobs id0 ≠ none →
      (addBlob e cfg).1.blobs.map Prod.fst = e.blobs.map Prod.fst ∧
      (addBlob e cfg).1.blobs.length = e.blobs.length) ∧
    (∀ e cfg, (e.blobs.map Prod.fst).Nodup →
      ((addBlob e cfg).1.blobs.map Prod.fst).Nodup) ∧
    (∀ e cfg, cfg.id = none →
      (addBlob e cfg).2 = "b" ++ toString (e.idSeq + 1) ∧
      (addBlob e cfg).1.idSeq = e.idSeq + 1) := by
  refine ⟨?_, ?_, ?_⟩
  · intro e cfg id0 hid hne hmem
    have hfix : ¬mapGet e.blobs id0 = none := hmem
    have hkeys : (addBlob e cfg).1.blobs.map Prod.fst = e.blobs.map Prod.fst := by
      simp only [addBlob, hid, hne, if_false]
      exact mapSet_keys_of_mem e.blobs id0 _ hfix
    refine ⟨hkeys, ?_⟩
    have := congrArg List.length hkeys
    simpa using this
  · intro e cfg hnd
    simp only [addBlob]
    exact mapSet_keys_nodup e.blobs _ _ hnd
  · intro e cfg hid
    simp [addBlob, hid]

theorem c10_witness :
    (({ cfgOmitAll with id := some "b1" } : BlobConfig).id = some "b1" ∧
      ("b1" : String) ≠ "" ∧ mapGet engineOne.blobs "b1" ≠ none) ∧
    ((addBlob engineOne { cfgOmitAll with id := some "b1" }).1.blobs.map Prod.fst =
        engineOne.blobs.map Prod.fst ∧
      (addBlob engineOne { cfgOmitAll with id := some "b1" }).1.blobs.length =
        engineOne.blobs.length) :=
  ⟨⟨rfl, by decide, fun h => Option.noConfusion h⟩,
    c10_addBlob_registry.1 engineOne { cfgOmitAll with id := some "b1" } "b1" rfl (by decide)
      (fun h => Option.noConfusion h)⟩

/-! ## C4 — static/dynamic classification -/

/-- The claim's wording of the static condition: zero parallax scale,
breathing absent or with both ranges equal to the identity, all drift
amplitudes and the drift speed zero, no active transition. -/
def specStatic (b : BlobInternal) : Prop :=
  b.parallaxScale = 0 ∧
  (b.breath = none ∨
    ∃ br, b.breath = some br ∧ br.scale = some (1, 1) ∧ br.opacity = some (1, 1)) ∧
  (b.drift.ax = 0 ∧ b.drift.ay = 0 ∧ b.drift.sx = 0 ∧ b.drift.sy = 0 ∧ b.drift.speed = 0) ∧
  b.ease = none

theorem classify_static_irrel (b : BlobInternal) (v : Bool) :
    classifyBlobStatic { b with static := v } = classifyBlobStatic b := rfl

theorem noParallaxB_iff (b : BlobInternal) :
    noParallaxB b = true ↔ b.parallaxScale = 0 := by
  simp [noParallaxB]

theorem noBreathB_iff (b : BlobInternal)
    (hpop : ∀ br, b.breath = some br → br.scale.isSome ∧ br.opacity.isSome) :
    noBreathB b = true ↔
      (b.breath = none ∨
        ∃ br, b.breath = some br ∧ br.scale = some (1, 1) ∧ br.opacity = some (1, 1)) := by
  cases hbr : b.breath with
  | none => simp [noBreathB, hbr]
  | some br =>
    obtain ⟨hsc0, hop0⟩ := hpop br hbr
    obtain ⟨sc, hsc⟩ := Option.isSome_iff_exists.mp hsc0
    obtain ⟨op, hop⟩ := Option.isSome_iff_exists.mp hop0
    constructor
    · intro h
      simp only [noBreathB, hbr, hsc, hop, Bool.and_eq_true, beq_iff_eq] at h
      obtain ⟨⟨h1, h2⟩, h3, h4⟩ := h
      refine Or.inr ⟨br, rfl, ?_, ?_⟩
      · rw [hsc]; exact congrArg some (Prod.ext h1 h2)
      · rw [hop]; exact congrArg some (Prod.ext h3 h4)
    · intro h
      rcases h with hnone | ⟨br2, hbr2, hs, ho⟩
      · cases hnone
      · injection hbr2 with hbr2
        subst hbr2
        rw [hsc] at hs
        rw [hop] at ho
        injection hs with hs
        injection ho with ho
        simp only [noBreathB, hbr, hsc, hop, Bool.and_eq_true, beq_iff_eq]
        exact ⟨⟨congrArg Prod.fst hs, congrArg Prod.snd hs⟩,
          congrArg Prod.fst ho, congrArg Prod.snd ho⟩

theorem noDriftB_iff (b : BlobInternal) :
    noDriftB b = true ↔
      (b.drift.ax = 0 ∧ b.drift.ay = 0 ∧ b.drift.sx = 0 ∧ b.drift.sy = 0 ∧
        b.drift.speed = 0) := by
  simp only [noDriftB, Bool.and_eq_true, beq_iff_eq]
  tauto

theorem advanceEase_some (dtMs : ℚ) (b : BlobInternal) (es : InternalEase)
    (h : b.ease = some es) :
    advanceEase dtMs b =
      (if 1 ≤ clampQ (es.t + clampQ (dtMs / es.durMs) 0 1) 0 1 then
        ({ b with ease := none, static := classifyBlobStatic ({ b with ease := none }) },
          classifyBlobStatic ({ b with ease := none }))
      else
        ({ b with
            ease := some ({ es with t := clampQ (es.t + clampQ (dtMs / es.durMs) 0 1) 0 1 }) },
          false)) := by
  unfold advanceEase
  rw [h]

/-- C4: the classifier decides exactly the claimed condition (on the
registry-reachable blobs, whose breath records are stored fully populated),
and classification is re-run by `updateBlob` patches touching the
classification inputs, forced dynamic by `easeTo`, and re-run when a
transition's elapsed fraction reaches 1. -/
theorem c4_classifier :
    (∀ b : BlobInternal,
      (∀ br, b.breath = some br → br.scale.isSome ∧ br.opacity.isSome) →
      (classifyBlobStatic b = true ↔ specStatic b)) ∧
    (∀ e id p b2, patchAffectsStatic p = true →
      mapGet e.blobs id ≠ none →
      mapGet (updateBlob e id p).blobs id = some b2 →
      b2.static = classifyBlobStatic b2) ∧
    (∀ e id tc dur nm b2,
      mapGet e.blobs id ≠ none →
      mapGet (easeTo e id tc dur nm).blobs id = some b2 →
      b2.static = false ∧ classifyBlobStatic b2 = false) ∧
    (∀ dt (b : BlobInternal), b.ease ≠ none → (advanceEase dt b).1.ease = none →
      (advanceEase dt b).1.static = classifyBlobStatic (advanceEase dt b).1) := by
  refine ⟨?_, ?_, ?_, ?_⟩
  · intro b hpop
    unfold classifyBlobStatic specStatic
    simp only [Bool.and_eq_true]
    rw [noParallaxB_iff, noBreathB_iff b hpop, noDriftB_iff, Option.isNone_iff_eq_none]
    tauto
  · intro e id p b2 haff hknown hget
    unfold updateBlob at hget
    cases hb : mapGet e.blobs id with
    | none => exact absurd hb hknown
    | some b =>
      rw [hb] at hget
      simp only at hget
      rw [mapGet_mapSet_self] at hget
      injection hget with hget
      subst hget
      unfold applyPatch
      simp only [haff, if_true]
      exact (classify_static_irrel _ _).symm
  · intro e id tc dur nm b2 hknown hget
    unfold easeTo at hget
    cases hb : mapGet e.blobs id with
    | none => exact absurd hb hknown
    | some b =>
      rw [hb] at hget
      simp only at hget
      rw [mapGet_mapSet_self] at hget
      by_cases hst : b.static = true
      · simp only [hst, if_true] at hget
        injection hget with hget
        subst hget
        exact ⟨rfl, by simp [classifyBlobStatic]⟩
      · simp only [Bool.not_eq_true] at hst
        simp only [hst, Bool.false_eq_true, if_false] at hget
        injection hget with hget
        subst hget
        exact ⟨rfl, by simp [classifyBlobStatic]⟩
  · intro dt b hne hdone
    cases hb : b.ease with
    | none => exact absurd hb hne
    | some es =>
      rw [advanceEase_some dt b es hb] at hdone ⊢
      by_cases hc : 1 ≤ clampQ (es.t + clampQ (dt / es.durMs) 0 1) 0 1
      · rw [if_pos hc]
        exact (classify_static_irrel { b with ease := none } _).symm
      · rw [if_neg hc] at hdone
        exact Option.noConfusion hdone


def blobStaticTest : BlobInternal :=
  { id := "s", diameter := JsVal.num 100,
    center := CenterSpec.pt (JsVal.num 0) (JsVal.num 0), layers := []
    opacity := 1, parallaxScale := 0, drift := ⟨0, 0, 0, 0, 0⟩, breath := none
    sprite := none, diamPx := 0, ease := none, lastRect := none, nextRect := none
    static := false }

def blobEasingTest : BlobInternal :=
  { blobStaticTest with
    ease := some ⟨(0, 0), (1, 1), 0, 500, easeInOutQuad⟩ }

def patchDrift : BlobPatch :=
  { patchEmpty with drift := some ⟨some 0, some 0, some 0, some 0, some 0⟩ }

theorem c4_witness :
    ((∀ br, blobStaticTest.breath = some br → br.scale.isSome ∧ br.opacity.isSome) ∧
      (classifyBlobStatic blobStaticTest = true ↔ specStatic blobStaticTest)) ∧
    (patchAffectsStatic patchDrift = true ∧ mapGet engineOne.blobs "b1" ≠ none ∧
      (∃ b2, mapGet (updateBlob engineOne "b1" patchDrift).blobs "b1" = some b2 ∧
        b2.static = classifyBlobStatic b2)) ∧
    (∃ b2, mapGet (easeTo engineOne "b1" (JsVal.num 1, JsVal.num 2) 500 "easeInOutQuad").blobs "b1" =
        some b2 ∧ b2.static = false ∧ classifyBlobStatic b2 = false) ∧
    (blobEasingTest.ease ≠ none ∧ (advanceEase 500 blobEasingTest).1.ease = none ∧
      (advanceEase 500 blobEasingTest).1.static =
        classifyBlobStatic (advanceEase 500 blobEasingTest).1) :=
  by
  have hdone : (advanceEase 500 blobEasingTest).1.ease = none := by
    rw [advanceEase_some 500 blobEasingTest ⟨(0, 0), (1, 1), 0, 500, easeInOutQuad⟩ rfl]
    norm_num [clampQ]
  exact ⟨⟨fun br h => Option.noConfusion h,
      c4_classifier.1 blobStaticTest (fun br h => Option.noConfusion h)⟩,
    ⟨rfl, fun h => Option.noConfusion h,
      ⟨_, rfl, c4_classifier.2.1 engineOne "b1" patchDrift _ rfl
        (fun h => Option.noConfusion h) rfl⟩⟩,
    ⟨_, rfl, c4_classifier.2.2.1 engineOne "b1" (JsVal.num 1, JsVal.num 2) 500 "easeInOutQuad" _
      (fun h => Option.noConfusion h) rfl⟩,
    ⟨fun h => Option.noConfusion h, hdone,
      c4_classifier.2.2.2 500 blobEasingTest (fun h => Option.noConfusion h) hdone⟩⟩

/-! ## C5 — the two-sinusoid drift formula

The drift lines of `_blobStateNow` (both variants) over `ℝ` with the genuine
trigonometric functions; `TAU = Math.PI * 2`. -/

/-- The x-axis drift of `_blobStateNow`:
`Math.sin(tSec*TAU*speed + 1.3)*ax + Math.sin(tSec*TAU*(speed*0.5) + 0.7)*sx`. -/
noncomputable def driftX (speed ax sx t : ℝ) : ℝ :=
  Real.sin (t * (Real.pi * 2) * speed + 1.3) * ax +
    Real.sin (t * (Real.pi * 2) * (speed * 0.5) + 0.7) * sx

/-- The y-axis drift of `_blobStateNow`:
`Math.cos(tSec*TAU*speed + 0.9)*ay + Math.cos(tSec*TAU*(speed*0.6) + 0.4)*sy`
— note the secondary frequency factor 0.6. -/
noncomputable def driftY (speed ay sy t : ℝ) : ℝ :=
  Real.cos (t * (Real.pi * 2) * speed + 0.9) * ay +
    Real.cos (t * (Real.pi * 2) * (speed * 0.6) + 0.4) * sy

/-- The claim's x-axis formula, as worded in the spec. -/
noncomputable def specDriftX (speed ax sx t : ℝ) : ℝ :=
  Real.sin (2 * Real.pi * speed * t + 1.3) * ax +
    Real.sin (2 * Real.pi * (speed * 0.5) * t + 0.7) * sx

/-- The claim's y-axis formula: the cosine analog with the SAME frequencies
speed and speed·0.5. -/
noncomputable def specDriftY (speed ay sy t : ℝ) : ℝ :=
  Real.cos (2 * Real.pi * speed * t + 0.9) * ay +
    Real.cos (2 * Real.pi * (speed * 0.5) * t + 0.4) * sy

/-- The amended y-axis formula: frequencies speed and speed·0.6. -/
noncomputable def specDriftYAmended (speed ay sy t : ℝ) : ℝ :=
  Real.cos (2 * Real.pi * speed * t + 0.9) * ay +
    Real.cos (2 * Real.pi * (speed * 0.6) * t + 0.4) * sy

/-- C5, counterexample: at speed 5, t = 1 s, amplitudes ay = 0, sy = 1, the
code's y drift is cos(6π + 0.4) = cos 0.4 while the claim's formula gives
cos(5π + 0.4) = −cos 0.4, and cos 0.4 ≠ 0. -/
theorem c5_counterexample : driftY 5 0 1 1 ≠ specDriftY 5 0 1 1 := by
  have hcode : driftY 5 0 1 1 = Real.cos 0.4 := by
    unfold driftY
    rw [mul_zero, zero_add, mul_one]
    have h1 : (1 : ℝ) * (Real.pi * 2) * (5 * 0.6) + 0.4 = 0.4 + (3 : ℤ) * (2 * Real.pi) := by
      push_cast; ring
    rw [h1, Real.cos_add_int_mul_two_pi]
  have hspec : specDriftY 5 0 1 1 = -Real.cos 0.4 := by
    unfold specDriftY
    rw [mul_zero, zero_add, mul_one]
    have h1 : 2 * Real.pi * ((5 : ℝ) * 0.5) * 1 + 0.4 = (0.4 + Real.pi) + (2 : ℤ) * (2 * Real.pi) := by
      push_cast; ring
    rw [h1, Real.cos_add_int_mul_two_pi, Real.cos_add_pi]
  have hpos : 0 < Real.cos 0.4 := by
    apply Real.cos_pos_of_mem_Ioo
    constructor
    · have hp := Real.pi_pos
      norm_num
      linarith
    · have hp := Real.pi_gt_three
      norm_num
      linarith
  rw [hcode, hspec]
  intro h
  nlinarith

/-- C5, amended: the x-axis drift is exactly the claimed two-sinusoid
formula (frequencies speed and speed·0.5, phases 1.3 and 0.7), and the
y-axis drift is its cosine analog with frequencies speed and speed·0.6
(phases 0.9 and 0.4). -/
theorem c5_amended_drift (speed ax sx ay sy t : ℝ) :
    driftX speed ax sx t = specDriftX speed ax sx t ∧
    driftY speed ay sy t = specDriftYAmended speed ay sy t := by
  constructor
  · unfold driftX specDriftX
    have h1 : t * (Real.pi * 2) * speed + 1.3 = 2 * Real.pi * speed * t + 1.3 := by ring
    have h2 : t * (Real.pi * 2) * (speed * 0.5) + 0.7 =
        2 * Real.pi * (speed * 0.5) * t + 0.7 := by ring
    rw [h1, h2]
  · unfold driftY specDriftYAmended
    have h1 : t * (Real.pi * 2) * speed + 0.9 = 2 * Real.pi * speed * t + 0.9 := by ring
    have h2 : t * (Real.pi * 2) * (speed * 0.6) + 0.4 =
        2 * Real.pi * (speed * 0.6) * t + 0.4 := by ring
    rw [h1, h2]

/-! ## C2 — full-redraw versus patch decision -/

/-- C2: on a frame with a non-empty damage list, the engine takes the
full-redraw path iff the merged rectangle count exceeds `maxDirtyRects` or
the merged area fraction exceeds `fullRedrawThreshold` (constructor default
0.55); otherwise it patches exactly the merged rectangles, blitting each
from the static layer and re-rendering exactly the dynamic blobs whose
current rectangle intersects a patched region. -/
theorem c2_redraw_decision (sinq cosq : ℚ → ℚ) (e : Engine) (ts dtMs : ℚ)
    (hne : stepDirtyList sinq cosq e ts dtMs ≠ []) :
    ((∃ ds, (step sinq cosq e ts dtMs).2 = RenderAction.full ds) ↔
      (((stepMerged sinq cosq e ts dtMs).length : ℚ) > (smoothedState e.state).maxDirtyRects ∨
        stepCover sinq cosq e ts dtMs > (smoothedState e.state).fullRedrawThreshold)) ∧
    (¬(((stepMerged sinq cosq e ts dtMs).length : ℚ) > (smoothedState e.state).maxDirtyRects ∨
        stepCover sinq cosq e ts dtMs > (smoothedState e.state).fullRedrawThreshold) →
      (step sinq cosq e ts dtMs).2 =
        RenderAction.patch (stepMerged sinq cosq e ts dtMs)
          (drawnDynamics sinq cosq (smoothedState e.state) (stepBlobs1 sinq cosq e ts dtMs)
            (ts / 1000) (stepParallaxPx (smoothedState e.state))
            (some (stepMerged sinq cosq e ts dtMs)))) ∧
    resolveFullRedrawThreshold none = 11/20 := by
  refine ⟨?_, step_act_patch sinq cosq e ts dtMs hne,
    by norm_num [resolveFullRedrawThreshold, clampQ]⟩
  constructor
  · rintro ⟨ds, hds⟩
    by_contra hdec
    rw [step_act_patch sinq cosq e ts dtMs hne hdec] at hds
    cases hds
  · intro hdec
    exact ⟨_, step_act_full sinq cosq e ts dtMs hne hdec⟩

/-! ## C1 — damage coverage on the patch path -/

/-- C1: whenever a frame takes the patch path, then for every dynamic blob
with a sprite, its previous rectangle (when recorded) and its current
rectangle, each inflated by the safety padding
max(damagePaddingPx, 1.5·blurPx), are contained in some patched rectangle. -/
theorem c1_damage_coverage (sinq cosq : ℚ → ℚ) (e : Engine) (ts dtMs : ℚ)
    (id : String) (b : BlobInternal) (lr : Rect) (rects : List Rect) (ds : List String)
    (hmem : (id, b) ∈ e.blobs)
    (hdyn : b.static = false)
    (hspr : b.sprite.isSome)
    (hpatch : (step sinq cosq e ts dtMs).2 = RenderAction.patch rects ds) :
    (b.lastRect = some lr →
      ∃ m ∈ rects, rectSub (inflateRect lr (stepPad (smoothedState e.state))) m) ∧
    (∃ m ∈ rects,
      rectSub (inflateRect (blobRect sinq cosq (smoothedState e.state)
          ((advanceEase dtMs b).1) (ts / 1000) (stepParallaxPx (smoothedState e.state)))
        (stepPad (smoothedState e.state))) m) := by
  have hrects := step_patch_inv sinq cosq e ts dtMs rects ds hpatch
  subst hrects
  have hskip : stepSkip b = false := by
    unfold stepSkip
    rw [hdyn]
    cases hs : b.sprite with
    | none => rw [hs] at hspr; cases hspr
    | some s => rfl
  have hbd : stepBlobDirty sinq cosq (smoothedState e.state) dtMs (ts / 1000)
      (stepParallaxPx (smoothedState e.state)) (stepPad (smoothedState e.state)) b =
      (match b.lastRect with
       | some lr2 => [inflateRect lr2 (stepPad (smoothedState e.state))]
       | none => []) ++
      [inflateRect (blobRect sinq cosq (smoothedState e.state)
          ((advanceEase dtMs b).1) (ts / 1000) (stepParallaxPx (smoothedState e.state)))
        (stepPad (smoothedState e.state))] := by
    simp only [stepBlobDirty, hskip, Bool.false_eq_true, if_false]
  have hdirty : ∀ r ∈ stepBlobDirty sinq cosq (smoothedState e.state) dtMs (ts / 1000)
      (stepParallaxPx (smoothedState e.state)) (stepPad (smoothedState e.state)) b,
      r ∈ stepDirtyList sinq cosq e ts dtMs := by
    intro r hr
    unfold stepDirtyList
    exact List.mem_flatMap.mpr ⟨(id, b), hmem, hr⟩
  constructor
  · intro hlast
    apply mergeRects_cover (stepDirtyList sinq cosq e ts dtMs) 2
    apply hdirty
    rw [hbd, hlast]
    exact List.mem_cons_self _ _
  · apply mergeRects_cover (stepDirtyList sinq cosq e ts dtMs) 2
    apply hdirty
    rw [hbd]
    exact List.mem_append_right _ (List.mem_singleton.mpr rfl)

/-! ### C1/C2 witnesses -/

def zeroTrig : ℚ → ℚ := fun _ => 0

/-- A dynamic blob (nonzero parallax scale keeps it off the static layer),
motionless at (500, 500) with a 100×100 sprite. -/
def blobDyn : BlobInternal :=
  { id := "b1", diameter := JsVal.num 100,
    center := CenterSpec.pt (JsVal.num 500) (JsVal.num 500), layers := []
    opacity := 1, parallaxScale := 1, drift := ⟨0, 0, 0, 0, 0⟩, breath := none
    sprite := some ⟨100, 100⟩, diamPx := 100, ease := none, lastRect := none
    nextRect := none, static := false }

def engineDyn : Engine :=
  { state := stateTest, blobs := [("b1", blobDyn)], idSeq := 1,
    needRebuildStatic := false, lastFrameTs := 0 }

theorem engineDyn_dirty :
    stepDirtyList zeroTrig zeroTrig engineDyn 0 0 = [⟨438, 438, 124, 124⟩] := by
  simp only [stepDirtyList, engineDyn, blobDyn, stateTest, List.flatMap_cons,
    List.flatMap_nil, stepBlobDirty, stepSkip, advanceEase, blobRect, blobStateNow,
    smoothedState, stepParallaxPx, stepPad, resolveCenter, unitToPxQ, unitToPx,
    lerpQ, inflateRect, zeroTrig, List.append_nil, List.nil_append]
  norm_num [Rect.mk.injEq]

theorem engineDyn_merged :
    stepMerged zeroTrig zeroTrig engineDyn 0 0 = [⟨438, 438, 124, 124⟩] := by
  unfold stepMerged
  rw [engineDyn_dirty]
  rfl

theorem engineDyn_decision :
    ¬(((stepMerged zeroTrig zeroTrig engineDyn 0 0).length : ℚ) >
        (smoothedState engineDyn.state).maxDirtyRects ∨
      stepCover zeroTrig zeroTrig engineDyn 0 0 >
        (smoothedState engineDyn.state).fullRedrawThreshold) := by
  have hcov : stepCover zeroTrig zeroTrig engineDyn 0 0 = 15376 / 1000000 := by
    unfold stepCover
    rw [engineDyn_merged]
    norm_num [smoothedState, engineDyn, stateTest, lerpQ]
  rw [engineDyn_merged, hcov]
  norm_num [smoothedState, engineDyn, stateTest, lerpQ]

theorem c2_witness :
    stepDirtyList zeroTrig zeroTrig engineDyn 0 0 ≠ [] ∧
    (((∃ ds, (step zeroTrig zeroTrig engineDyn 0 0).2 = RenderAction.full ds) ↔
        (((stepMerged zeroTrig zeroTrig engineDyn 0 0).length : ℚ) >
            (smoothedState engineDyn.state).maxDirtyRects ∨
          stepCover zeroTrig zeroTrig engineDyn 0 0 >
            (smoothedState engineDyn.state).fullRedrawThreshold)) ∧
      (¬(((stepMerged zeroTrig zeroTrig engineDyn 0 0).length : ℚ) >
            (smoothedState engineDyn.state).maxDirtyRects ∨
          stepCover zeroTrig zeroTrig engineDyn 0 0 >
            (smoothedState engineDyn.state).fullRedrawThreshold) →
        (step zeroTrig zeroTrig engineDyn 0 0).2 =
          RenderAction.patch (stepMerged zeroTrig zeroTrig engineDyn 0 0)
            (drawnDynamics zeroTrig zeroTrig (smoothedState engineDyn.state)
              (stepBlobs1 zeroTrig zeroTrig engineDyn 0 0) (0 / 1000)
              (stepParallaxPx (smoothedState engineDyn.state))
              (some (stepMerged zeroTrig zeroTrig engineDyn 0 0)))) ∧
      resolveFullRedrawThreshold none = 11/20) := by
  have hne : stepDirtyList zeroTrig zeroTrig engineDyn 0 0 ≠ [] := by
    rw [engineDyn_dirty]
    simp
  exact ⟨hne, c2_redraw_decision zeroTrig zeroTrig engineDyn 0 0 hne⟩

theorem c1_witness :
    (("b1", blobDyn) ∈ engineDyn.blobs ∧ blobDyn.static = false ∧
      blobDyn.sprite.isSome ∧
      (step zeroTrig zeroTrig engineDyn 0 0).2 =
        RenderAction.patch (stepMerged zeroTrig zeroTrig engineDyn 0 0)
          (drawnDynamics zeroTrig zeroTrig (smoothedState engineDyn.state)
            (stepBlobs1 zeroTrig zeroTrig engineDyn 0 0) (0 / 1000)
            (stepParallaxPx (smoothedState engineDyn.state))
            (some (stepMerged zeroTrig zeroTrig engineDyn 0 0)))) ∧
    (∃ m ∈ stepMerged zeroTrig zeroTrig engineDyn 0 0,
      rectSub (inflateRect (blobRect zeroTrig zeroTrig (smoothedState engineDyn.state)
          ((advanceEase 0 blobDyn).1) (0 / 1000)
          (stepParallaxPx (smoothedState engineDyn.state)))
        (stepPad (smoothedState engineDyn.state))) m) := by
  have hne : stepDirtyList zeroTrig zeroTrig engineDyn 0 0 ≠ [] := by
    rw [engineDyn_dirty]
    simp
  have hpatch := step_act_patch zeroTrig zeroTrig engineDyn 0 0 hne engineDyn_decision
  have hmem : ("b1", blobDyn) ∈ engineDyn.blobs := List.mem_singleton.mpr rfl
  exact ⟨⟨hmem, rfl, rfl, hpatch⟩,
    (c1_damage_coverage zeroTrig zeroTrig engineDyn 0 0 "b1" blobDyn ⟨0, 0, 0, 0⟩ _ _
      hmem rfl rfl hpatch).2⟩

/-! ## C3 — easeTo end-to-end schedule

The claimed schedule: easeTo at T = 0 toward (100, 100) over 500 ms, frames
at T, T+125, T+250, T+375, T+500.  In `_step` the transition is cleared as
soon as its fraction reaches 1 — before the frame's position is computed —
so the T+500 frame renders at the blob's configured base center, not at the
destination. -/

def cfgC3 : BlobConfig :=
  ⟨some "b1", JsVal.num 100, CenterSpec.pt (JsVal.num 0) (JsVal.num 0), some [],
    some 1, some 1, some ⟨some 0, some 0, some 0, some 0, some 0⟩, none⟩

/-- The engine right after `addBlob` (center (0,0), zero drift, parallax
scale 1 so the blob is dynamic) and `easeTo("b1", (100,100), 500,
"easeInOutQuad")` at T = 0. -/
def engineC3 : Engine :=
  easeTo (addBlob engineEmpty cfgC3).1 "b1" (JsVal.num 100, JsVal.num 100) 500 "easeInOutQuad"

def loopEngine : LoopResult → Engine
  | LoopResult.stopped e => e
  | LoopResult.skipped e => e
  | LoopResult.frame e _ => e

/-- The canonical blob carrying a given motion view. -/
def mkBlob (mv : MotionView) : BlobInternal :=
  { id := "b1", diameter := JsVal.num 100, center := mv.center, layers := []
    opacity := 1, parallaxScale := mv.parallaxScale, drift := mv.drift
    breath := mv.breath, sprite := some ⟨100, 100⟩, diamPx := 100, ease := mv.ease
    lastRect := none, nextRect := none, static := false }

theorem motionOf_mkBlob (mv : MotionView) : motionOf (mkBlob mv) = mv := rfl

/-- The blob "b1" is registered with motion view `mv`, is dynamic and has a
sprite. -/
def blobAt (e : Engine) (mv : MotionView) : Prop :=
  ∃ b, mapGet e.blobs "b1" = some b ∧ motionOf b = mv ∧
    b.static = false ∧ b.sprite.isSome = true

def esC3 (t : ℚ) : InternalEase := ⟨(0, 0), (100, 100), t, 500, easeInOutQuad⟩

def mvC3 (t : ℚ) : MotionView :=
  ⟨CenterSpec.pt (JsVal.num 0) (JsVal.num 0), 1, ⟨0, 0, 0, 0, 0⟩, none, some (esC3 t)⟩

def mvC3End : MotionView :=
  ⟨CenterSpec.pt (JsVal.num 0) (JsVal.num 0), 1, ⟨0, 0, 0, 0, 0⟩, none, none⟩

def c3E1 (sinq cosq : ℚ → ℚ) : Engine := loopEngine (loop sinq cosq engineC3 0)
def c3E2 (sinq cosq : ℚ → ℚ) : Engine := loopEngine (loop sinq cosq (c3E1 sinq cosq) 125)
def c3E3 (sinq cosq : ℚ → ℚ) : Engine := loopEngine (loop sinq cosq (c3E2 sinq cosq) 250)
def c3E4 (sinq cosq : ℚ → ℚ) : Engine := loopEngine (loop sinq cosq (c3E3 sinq cosq) 375)
def c3E5 (sinq cosq : ℚ → ℚ) : Engine := loopEngine (loop sinq cosq (c3E4 sinq cosq) 500)

theorem lerpQ_self (a t : ℚ) : lerpQ a a t = a := by
  unfold lerpQ; ring

theorem smoothedState_fixed (s : State) (hx : s.px = s.tx) (hy : s.py = s.ty) :
    smoothedState s = s := by
  have h1 : lerpQ s.px s.tx (1/10) = s.px := by rw [hx]; exact lerpQ_self _ _
  have h2 : lerpQ s.py s.ty (1/10) = s.py := by rw [hy]; exact lerpQ_self _ _
  unfold smoothedState
  rw [h1, h2]

theorem loop_accept (sinq cosq : ℚ → ℚ) (e : Engine) (ts : ℚ)
    (hrun : e.state.running = true) (hcap : e.state.fpsCap = 0) :
    loop sinq cosq e ts =
      LoopResult.frame
        (step sinq cosq { e with lastFrameTs := ts } ts (max 0 (ts - e.lastFrameTs))).1
        (step sinq cosq { e with lastFrameTs := ts } ts (max 0 (ts - e.lastFrameTs))).2 := by
  unfold loop
  rw [hrun]
  simp only [Bool.not_true, Bool.false_eq_true, if_false]
  rw [if_neg]
  rintro ⟨h1, _⟩
  rw [hcap] at h1
  exact lt_irrefl 0 h1

theorem classify_of_parallax_one (b : BlobInternal) (h : b.parallaxScale = 1) :
    classifyBlobStatic b = false := by
  unfold classifyBlobStatic noParallaxB
  rw [h]
  have h10 : ((1 : ℚ) == 0) = false := beq_eq_false_iff_ne.mpr (by norm_num)
  rw [h10]
  simp

theorem advanceEase_sprite (dt : ℚ) (b : BlobInternal) :
    (advanceEase dt b).1.sprite = b.sprite := by
  unfold advanceEase
  cases b.ease with
  | none => rfl
  | some es =>
    dsimp only
    split <;> rfl

theorem advanceEase_static_false (dt : ℚ) (b : BlobInternal) (hst : b.static = false)
    (hps : b.parallaxScale = 1) : (advanceEase dt b).1.static = false := by
  unfold advanceEase
  cases b.ease with
  | none => exact hst
  | some es =>
    dsimp only
    split
    · exact classify_of_parallax_one _ hps
    · exact hst

theorem blobAt_step (sinq cosq : ℚ → ℚ) (e : Engine) (ts dt : ℚ) (mv mv2 : MotionView)
    (h : blobAt e mv) (hps : mv.parallaxScale = 1)
    (hadv : ∀ b : BlobInternal, motionOf b = mv →
      motionOf (advanceEase dt b).1 = mv2) :
    blobAt (step sinq cosq e ts dt).1 mv2 := by
  obtain ⟨b, hb, hm, hst, hsp⟩ := h
  obtain ⟨b2, hb2, hmot, hstat, hsprite⟩ := step_blob sinq cosq e ts dt "b1" b hb
  have hskip : stepSkip b = false := by
    unfold stepSkip
    rw [hst]
    cases hs : b.sprite with
    | none => rw [hs] at hsp; cases hsp
    | some s => rfl
  have heff : stepEff dt b = (advanceEase dt b).1 := by
    unfold stepEff
    rw [hskip]
    simp
  have hbps : b.parallaxScale = 1 := by
    have := congrArg MotionView.parallaxScale hm
    rw [hps] at this
    exact this
  refine ⟨b2, hb2, ?_, ?_, ?_⟩
  · rw [hmot, heff]
    exact hadv b hm
  · rw [hstat, heff]
    exact advanceEase_static_false dt b hst hbps
  · rw [hsprite, heff, advanceEase_sprite]
    exact hsp

/-- One accepted frame of the C3 schedule: the state stays the test state
(the pointer is at rest), the timestamp is recorded, and the blob's motion
advances by `advanceEase` with the real delta-time. -/
theorem c3_frame (sinq cosq : ℚ → ℚ) (e : Engine) (ts : ℚ) (mv mv2 : MotionView)
    (hst : e.state = stateTest) (hb : blobAt e mv) (hps : mv.parallaxScale = 1)
    (hadv : ∀ b : BlobInternal, motionOf b = mv →
      motionOf (advanceEase (max 0 (ts - e.lastFrameTs)) b).1 = mv2) :
    (loopEngine (loop sinq cosq e ts)).state = stateTest ∧
    (loopEngine (loop sinq cosq e ts)).lastFrameTs = ts ∧
    blobAt (loopEngine (loop sinq cosq e ts)) mv2 := by
  have hrun : e.state.running = true := by rw [hst]; rfl
  have hcap : e.state.fpsCap = 0 := by rw [hst]; rfl
  have hE : loopEngine (loop sinq cosq e ts) =
      (step sinq cosq { e with lastFrameTs := ts } ts (max 0 (ts - e.lastFrameTs))).1 := by
    rw [loop_accept sinq cosq e ts hrun hcap]
    rfl
  rw [hE]
  refine ⟨?_, ?_, ?_⟩
  · rw [step_state]
    show smoothedState e.state = stateTest
    rw [hst]
    exact smoothedState_fixed stateTest rfl rfl
  · rw [step_lastFrameTs]
  · exact blobAt_step sinq cosq { e with lastFrameTs := ts } ts
      (max 0 (ts - e.lastFrameTs)) mv mv2 hb hps hadv

/-- The motion advance below the completion threshold. -/
theorem motion_advance (dt t t2 : ℚ) (b : BlobInternal) (hm : motionOf b = mvC3 t)
    (ht2 : clampQ (t + clampQ (dt / 500) 0 1) 0 1 = t2) (hlt : t2 < 1) :
    motionOf (advanceEase dt b).1 = mvC3 t2 := by
  have hbe : b.ease = some (esC3 t) := congrArg MotionView.ease hm
  have hcond : ¬ (1 ≤ clampQ ((esC3 t).t + clampQ (dt / (esC3 t).durMs) 0 1) 0 1) := by
    show ¬ (1 ≤ clampQ (t + clampQ (dt / 500) 0 1) 0 1)
    rw [ht2]
    exact not_le.mpr hlt
  rw [advanceEase_some dt b (esC3 t) hbe, if_neg hcond]
  have h1 : b.center = (mvC3 t).center := congrArg MotionView.center hm
  have h2 : b.parallaxScale = (mvC3 t).parallaxScale := congrArg MotionView.parallaxScale hm
  have h3 : b.drift = (mvC3 t).drift := congrArg MotionView.drift hm
  have h4 : b.breath = (mvC3 t).breath := congrArg MotionView.breath hm
  show (⟨b.center, b.parallaxScale, b.drift, b.breath, _⟩ : MotionView) = mvC3 t2
  rw [h1, h2, h3, h4]
  show mvC3 (clampQ ((esC3 t).t + clampQ (dt / (esC3 t).durMs) 0 1) 0 1) = mvC3 t2
  rw [show (esC3 t).t = t from rfl, show (esC3 t).durMs = 500 from rfl, ht2]

/-- The motion advance at the completion threshold: the transition is
cleared. -/
theorem motion_advance_end (dt t : ℚ) (b : BlobInternal) (hm : motionOf b = mvC3 t)
    (hge : 1 ≤ clampQ (t + clampQ (dt / 500) 0 1) 0 1) :
    motionOf (advanceEase dt b).1 = mvC3End := by
  have hbe : b.ease = some (esC3 t) := congrArg MotionView.ease hm
  have hcond : 1 ≤ clampQ ((esC3 t).t + clampQ (dt / (esC3 t).durMs) 0 1) 0 1 := by
    show 1 ≤ clampQ (t + clampQ (dt / 500) 0 1) 0 1
    exact hge
  rw [advanceEase_some dt b (esC3 t) hbe, if_pos hcond]
  have h1 : b.center = (mvC3 t).center := congrArg MotionView.center hm
  have h2 : b.parallaxScale = (mvC3 t).parallaxScale := congrArg MotionView.parallaxScale hm
  have h3 : b.drift = (mvC3 t).drift := congrArg MotionView.drift hm
  have h4 : b.breath = (mvC3 t).breath := congrArg MotionView.breath hm
  show (⟨b.center, b.parallaxScale, b.drift, b.breath, none⟩ : MotionView) = mvC3End
  rw [h1, h2, h3, h4]
  rfl

theorem renderedCenter_eval (sinq cosq : ℚ → ℚ) (e : Engine) (ts : ℚ) (mv : MotionView)
    (h : blobAt e mv) (hst : e.state = stateTest) :
    renderedCenter sinq cosq e ts "b1" =
      some ((blobStateNow sinq cosq stateTest (mkBlob mv) (ts / 1000)
          (stepParallaxPx stateTest)).cx,
        (blobStateNow sinq cosq stateTest (mkBlob mv) (ts / 1000)
          (stepParallaxPx stateTest)).cy) := by
  obtain ⟨b, hb, hm, _, _⟩ := h
  unfold renderedCenter
  rw [hb, hst]
  have hcongr := blobStateNow_congr sinq cosq stateTest
    (show motionOf b = motionOf (mkBlob mv) by rw [hm, motionOf_mkBlob])
    (ts / 1000) (stepParallaxPx stateTest)
  simp only [Option.map_some']
  rw [hcongr]

theorem centerC3_during (sinq cosq : ℚ → ℚ) (ts t : ℚ) :
    blobStateNow sinq cosq stateTest (mkBlob (mvC3 t)) (ts / 1000)
      (stepParallaxPx stateTest) =
      ⟨lerpQ 0 100 (easeInOutQuad t), lerpQ 0 100 (easeInOutQuad t), 1, 1⟩ := by
  simp only [blobStateNow, mkBlob, mvC3, esC3, stateTest, stepParallaxPx,
    mul_zero, zero_mul, add_zero]

theorem centerC3_end (sinq cosq : ℚ → ℚ) (ts : ℚ) :
    blobStateNow sinq cosq stateTest (mkBlob mvC3End) (ts / 1000)
      (stepParallaxPx stateTest) = ⟨0, 0, 1, 1⟩ := by
  simp only [blobStateNow, mkBlob, mvC3End, stateTest, stepParallaxPx, resolveCenter,
    unitToPxQ, unitToPx, Option.getD_some, mul_zero, zero_mul, add_zero]

theorem blobAt_engineC3 : blobAt engineC3 (mvC3 0) := by
  have h10 : ((1 : ℚ) == 0) = false := beq_eq_false_iff_ne.mpr (by norm_num)
  refine ⟨_, rfl, ?_, ?_, ?_⟩ <;>
    simp only [engineC3, addBlob, easeTo, rebuildSprite, mapGet, mapSet, engineEmpty,
      cfgC3, classifyBlobStatic, noParallaxB, noBreathB, noDriftB, motionOf, mvC3, esC3,
      resolveCenter, unitToPxQ, unitToPx, easingsLookup, stateTest, h10, Bool.false_and,
      Bool.false_eq_true, if_false, Option.getD_some, Option.isSome_some,
      MotionView.mk.injEq, InternalEase.mk.injEq, Option.some.injEq, Prod.mk.injEq] <;>
    norm_num

theorem easeValC3_0 : lerpQ 0 100 (easeInOutQuad 0) = 0 := by
  unfold lerpQ easeInOutQuad
  norm_num

theorem easeValC3_14 : lerpQ 0 100 (easeInOutQuad (1/4)) = 25/2 := by
  unfold lerpQ easeInOutQuad
  norm_num

theorem easeValC3_12 : lerpQ 0 100 (easeInOutQuad (1/2)) = 50 := by
  unfold lerpQ easeInOutQuad
  norm_num

theorem easeValC3_34 : lerpQ 0 100 (easeInOutQuad (3/4)) = 175/2 := by
  unfold lerpQ easeInOutQuad
  norm_num

/-- C3: a blob configured at base center (0,0) is sent by
`easeTo("b1", (100,100), 500, "easeInOutQuad")` at T = 0, and frames run at
T, T+125, T+250, T+375, T+500 ms.  The rendered center approaches the
destination through (0,0), (12.5,12.5), (50,50), (87.5,87.5), but at
T+500 `_step` clears the completed transition before the frame's position
is computed, so the final frame renders at the configured base center
(0,0), not at the destination (100,100): the spec's end-to-end property
fails at its last sample. -/
theorem c3_easeTo_snapback (sinq cosq : ℚ → ℚ) :
    renderedCenter sinq cosq (c3E1 sinq cosq) 0 "b1" = some (0, 0) ∧
    renderedCenter sinq cosq (c3E2 sinq cosq) 125 "b1" = some (25/2, 25/2) ∧
    renderedCenter sinq cosq (c3E3 sinq cosq) 250 "b1" = some (50, 50) ∧
    renderedCenter sinq cosq (c3E4 sinq cosq) 375 "b1" = some (175/2, 175/2) ∧
    renderedCenter sinq cosq (c3E5 sinq cosq) 500 "b1" = some (0, 0) ∧
    ((0 : ℚ), (0 : ℚ)) ≠ ((100 : ℚ), (100 : ℚ)) := by
  have ht2a : clampQ (0 + clampQ (max 0 ((0:ℚ) - engineC3.lastFrameTs) / 500) 0 1) 0 1
      = 0 := by
    rw [show engineC3.lastFrameTs = (0:ℚ) from rfl]
    norm_num [clampQ]
  have hf1 := c3_frame sinq cosq engineC3 0 (mvC3 0) (mvC3 0) rfl blobAt_engineC3 rfl
    (fun b hm => motion_advance _ 0 0 b hm ht2a (by norm_num))
  have h1s : (c3E1 sinq cosq).state = stateTest := hf1.1
  have h1l : (c3E1 sinq cosq).lastFrameTs = 0 := hf1.2.1
  have h1b : blobAt (c3E1 sinq cosq) (mvC3 0) := hf1.2.2
  have ht2b : clampQ (0 + clampQ (max 0 ((125:ℚ) - (c3E1 sinq cosq).lastFrameTs) / 500) 0 1)
      0 1 = 1/4 := by
    rw [h1l]
    norm_num [clampQ]
  have hf2 := c3_frame sinq cosq (c3E1 sinq cosq) 125 (mvC3 0) (mvC3 (1/4)) h1s h1b rfl
    (fun b hm => motion_advance _ 0 (1/4) b hm ht2b (by norm_num))
  have h2s : (c3E2 sinq cosq).state = stateTest := hf2.1
  have h2l : (c3E2 sinq cosq).lastFrameTs = 125 := hf2.2.1
  have h2b : blobAt (c3E2 sinq cosq) (mvC3 (1/4)) := hf2.2.2
  have ht2c : clampQ (1/4 + clampQ (max 0 ((250:ℚ) - (c3E2 sinq cosq).lastFrameTs) / 500) 0 1)
      0 1 = 1/2 := by
    rw [h2l]
    norm_num [clampQ]
  have hf3 := c3_frame sinq cosq (c3E2 sinq cosq) 250 (mvC3 (1/4)) (mvC3 (1/2)) h2s h2b rfl
    (fun b hm => motion_advance _ (1/4) (1/2) b hm ht2c (by norm_num))
  have h3s : (c3E3 sinq cosq).state = stateTest := hf3.1
  have h3l : (c3E3 sinq cosq).lastFrameTs = 250 := hf3.2.1
  have h3b : blobAt (c3E3 sinq cosq) (mvC3 (1/2)) := hf3.2.2
  have ht2d : clampQ (1/2 + clampQ (max 0 ((375:ℚ) - (c3E3 sinq cosq).lastFrameTs) / 500) 0 1)
      0 1 = 3/4 := by
    rw [h3l]
    norm_num [clampQ]
  have hf4 := c3_frame sinq cosq (c3E3 sinq cosq) 375 (mvC3 (1/2)) (mvC3 (3/4)) h3s h3b rfl
    (fun b hm => motion_advance _ (1/2) (3/4) b hm ht2d (by norm_num))
  have h4s : (c3E4 sinq cosq).state = stateTest := hf4.1
  have h4l : (c3E4 sinq cosq).lastFrameTs = 375 := hf4.2.1
  have h4b : blobAt (c3E4 sinq cosq) (mvC3 (3/4)) := hf4.2.2
  have hge5 : 1 ≤ clampQ (3/4 + clampQ (max 0 ((500:ℚ) - (c3E4 sinq cosq).lastFrameTs) / 500)
      0 1) 0 1 := by
    rw [h4l]
    norm_num [clampQ]
  have hf5 := c3_frame sinq cosq (c3E4 sinq cosq) 500 (mvC3 (3/4)) mvC3End h4s h4b rfl
    (fun b hm => motion_advance_end _ (3/4) b hm hge5)
  have h5s : (c3E5 sinq cosq).state = stateTest := hf5.1
  have h5b : blobAt (c3E5 sinq cosq) mvC3End := hf5.2.2
  refine ⟨?_, ?_, ?_, ?_, ?_, ?_⟩
  · rw [renderedCenter_eval sinq cosq (c3E1 sinq cosq) 0 (mvC3 0) h1b h1s,
      centerC3_during sinq cosq 0 0, easeValC3_0]
  · rw [renderedCenter_eval sinq cosq (c3E2 sinq cosq) 125 (mvC3 (1/4)) h2b h2s,
      centerC3_during sinq cosq 125 (1/4), easeValC3_14]
  · rw [renderedCenter_eval sinq cosq (c3E3 sinq cosq) 250 (mvC3 (1/2)) h3b h3s,
      centerC3_during sinq cosq 250 (1/2), easeValC3_12]
  · rw [renderedCenter_eval sinq cosq (c3E4 sinq cosq) 375 (mvC3 (3/4)) h4b h4s,
      centerC3_during sinq cosq 375 (3/4), easeValC3_34]
  · rw [renderedCenter_eval sinq cosq (c3E5 sinq cosq) 500 mvC3End h5b h5s,
      centerC3_end sinq cosq 500]
  · intro h
    exact absurd (congrArg Prod.fst h) (by norm_num)

end FluidBg
